import Mathlib

/-!
# Verification of the Great Expedition settlement engine

Shallow embedding of the round/entry/settlement core of the backend
(`settleRound`, `getRoundStats`, `getCurrentRound`, and the
`/api/v2/ge/buy-entry`, `/api/v2/ge/confirm-entry`, `/api/v2/ge/enter`
endpoints), over explicit state passing.  JavaScript number arithmetic is
modelled exactly over `ℚ`; the SHA-256 digest, `Date.toISOString` and JS
number printing are abstract function parameters of the environment (the
code only ever concatenates and re-parses their output).  The database is
modelled as lists of rows plus a total balance map; SQL conditional
updates become guarded pure updates.
-/

namespace Zeruva

/-- Status values stored in the `status` column of `ge_rounds`. -/
inductive RoundStatus
  | filling
  | running
  | settled
  | closed
deriving DecidableEq, Repr

/-- One row of the `ge_rounds` table (the columns the engine reads or writes). -/
structure Round where
  id : Nat
  status : RoundStatus
  started_at : Option ℚ
  ends_at : ℚ
  winning_ship_index : Option Nat
  emissions_total : ℚ
  seed : Option String
  seed_commit : Option String
  seed_reveal : Option String
  settled_at : Option ℚ
deriving DecidableEq, Repr

/-- One row of the `ge_entries` table. -/
structure Entry where
  round_id : Nat
  wallet : String
  ship_index : Int
  qty : ℚ
deriving DecidableEq, Repr

/-- The `kind` column of `payment_intents`.  The code writes the colon-joined
string `ge_entry:<roundId>:<shipIndex>:<qty>` and splits it back on `:`,
reading each part with `Number` — an exact round trip for the values the
code produces, so the kind is modelled structurally. -/
inductive IntentKind
  | geEntry (roundId : Nat) (shipIndex : Int) (qty : ℚ)
  | otherKind (tag : String)
deriving DecidableEq, Repr

/-- One row of the `payment_intents` table.  `lamports` is stored as a string
in the database (`String(lamports)`) and read back with `Number`, an exact
round trip for the integer values `Math.round` produces. -/
structure Intent where
  id : String
  wallet : String
  kind : IntentKind
  lamports : Int
  expires_at : ℚ
deriving DecidableEq, Repr

/-- One row of the `payments` table; `signature` is the primary key. -/
structure Payment where
  signature : String
  wallet : String
  kind : String
  amount_sol : ℚ
deriving DecidableEq, Repr

/-- One row of the `ge_payouts` table. -/
structure Payout where
  round_id : Nat
  wallet : String
  amount : ℚ
deriving DecidableEq, Repr

/-- The database state the engine reads and writes.  `balances` maps a wallet
to its `ge_balances.balance` (absent rows are 0; the code only ever upserts
with `balance = balance + EXCLUDED.balance`). -/
structure St where
  rounds : List Round
  entries : List Entry
  intents : List Intent
  payments : List Payment
  payouts : List Payout
  balances : String → ℚ

/-- Environment configuration and the external pure collaborators: `H` is the
SHA-256 hex digest, `isoStr` is `Date.toISOString` on an epoch-millisecond
value, `numStr` is JS number-to-string.  `entryPriceSol` is
`GE_ENTRY_PRICE_SOL`, the `*Bps` fields are `GE_WINNER_BPS`,
`GE_PARTICIPATION_BPS`, `GE_TREASURY_BPS`, `cutoffMs` is
`GE_ENTRY_CUTOFF_MS` and `treasuryWallet` is `GE_TREASURY_WALLET`
(empty string = unset). -/
structure Env where
  H : String → String
  isoStr : ℚ → String
  numStr : ℚ → String
  entryPriceSol : ℚ
  winnerBps : ℚ
  participationBps : ℚ
  treasuryBps : ℚ
  cutoffMs : ℚ
  treasuryWallet : String

/-- `const GE_SHIPS = 15`. -/
def GE_SHIPS : Nat := 15

/-- `Math.max(1, Math.min(100, Number(req.body?.qty || 1)))` on a JSON number
or a missing field: `undefined` and `0` are falsy and so replaced by `1`
before the clamp. -/
def jsClampQty (q : Option ℚ) : ℚ :=
  match q with
  | none => 1
  | some v => max 1 (min 100 (if v = 0 then 1 else v))

/-- `Math.round`: round half toward positive infinity. -/
def jsRound (q : ℚ) : Int := ⌊q + 1 / 2⌋

/-- Truncation toward zero, as JS number division inside `%` uses. -/
def ratTrunc (q : ℚ) : Int := if 0 ≤ q then ⌊q⌋ else -⌊-q⌋

/-- The JS remainder operator `a % b` (sign of the dividend). -/
def jsMod (a b : ℚ) : ℚ := a - b * ratTrunc (a / b)

/-- Value of one hexadecimal digit. -/
def hexVal (c : Char) : Option Nat :=
  if '0' ≤ c ∧ c ≤ '9' then some (c.toNat - '0'.toNat)
  else if 'a' ≤ c ∧ c ≤ 'f' then some (c.toNat - 'a'.toNat + 10)
  else if 'A' ≤ c ∧ c ≤ 'F' then some (c.toNat - 'A'.toNat + 10)
  else none

/-- Accumulate the maximal hexadecimal prefix. -/
def hexAcc : List Char → Nat → Nat
  | [], acc => acc
  | c :: cs, acc =>
    match hexVal c with
    | none => acc
    | some d => hexAcc cs (acc * 16 + d)

/-- `parseInt(s, 16)` on a digest-style string (no sign, no leading
whitespace, no `0x` prefix — SHA-256 hex output): parses the maximal
hexadecimal prefix, `none` meaning `NaN` (no leading hex digit). -/
def parseIntHex (cs : List Char) : Option Nat :=
  match cs with
  | [] => none
  | c :: rest =>
    match hexVal c with
    | none => none
    | some d => some (hexAcc rest d)

/-- Rows of `ge_entries` belonging to one round (`WHERE round_id=$1`). -/
def entriesOf (st : St) (rid : Nat) : List Entry :=
  st.entries.filter (fun e => decide (e.round_id = rid))

/-- `getRoundStats`: summed qty for one ship index (out-of-range indices are
dropped when the per-ship array is filled). -/
def shipQty (es : List Entry) (i : Nat) : ℚ :=
  ((es.filter (fun e => decide (e.ship_index = (i : Int)))).map (fun e => e.qty)).sum

/-- `getRoundStats().totalEntries`: the per-ship totals reduced over the 15
ship slots. -/
def totalEntriesQ (es : List Entry) : ℚ :=
  ((List.range GE_SHIPS).map (fun i => shipQty es i)).sum

/-- Distinct wallets of a list of entries, in first-appearance order
(`GROUP BY wallet`). -/
def walletsOf (es : List Entry) : List String :=
  (es.map (fun e => e.wallet)).dedup

/-- `COALESCE(SUM(qty),0)` for one wallet over a list of entries. -/
def qtyOf (es : List Entry) (w : String) : ℚ :=
  ((es.filter (fun e => decide (e.wallet = w))).map (fun e => e.qty)).sum

/-- `SELECT wallet, COALESCE(SUM(qty),0) AS qty ... GROUP BY wallet`. -/
def groupRows (es : List Entry) : List (String × ℚ) :=
  (walletsOf es).map (fun w => (w, qtyOf es w))

/-- `rows.reduce((a, r) => a + Number(r.qty), 0)`. -/
def rowsTotal (rows : List (String × ℚ)) : ℚ :=
  (rows.map (fun p => p.2)).sum

/-- Total ticket quantity of a list of entries (sum over all its rows). -/
def totalTickets (es : List Entry) : ℚ :=
  (es.map (fun e => e.qty)).sum

/-- The winner-selection loop: starting at ship `i` with accumulator `acc`,
`acc += qty i; if (ticket < acc) break` — `none` when the loop runs out. -/
def pickFrom (ticket : ℚ) (q : Nat → ℚ) : Nat → Nat → ℚ → Option Nat
  | 0, _, _ => none
  | fuel + 1, i, acc =>
    let acc2 := acc + q i
    if ticket < acc2 then some i else pickFrom ticket q fuel (i + 1) acc2

/-- Cumulative per-ship ticket count over the first `n` ship indices. -/
def cumQty (es : List Entry) (n : Nat) : ℚ :=
  ((List.range n).map (fun i => shipQty es i)).sum

/-- Modelled from the spec (§4.3 step 4, for refinement comparison): the
first outcome, iterating outcomes in index order, whose cumulative
ticket count exceeds the drawn ticket `t`. -/
def firstCumWinner (t : ℚ) (es : List Entry) : Option Nat :=
  (List.range GE_SHIPS).find? (fun i => decide (t < cumQty es (i + 1)))

/-- The settlement secret: `round.seed_reveal || crypto.randomBytes(32)` —
JS falsiness, so an empty stored secret also falls back to fresh entropy. -/
def settleSecret (freshSecret : String) (round : Round) : String :=
  match round.seed_reveal with
  | some s => if s = "" then freshSecret else s
  | none => freshSecret

/-- The template-literal hash input
`` `${secret}:${round.id}:${endsAt.toISOString()}:${stats.totalEntries}` ``. -/
def settleSeedInput (env : Env) (round : Round) (secret : String) (total : ℚ) : String :=
  secret ++ ":" ++ toString round.id ++ ":" ++ env.isoStr round.ends_at ++ ":" ++ env.numStr total

/-- The settlement seed of a round: SHA-256 of the hash input. -/
def settleSeedOf (env : Env) (freshSecret : String) (st : St) (round : Round) : String :=
  env.H (settleSeedInput env round (settleSecret freshSecret round) (totalEntriesQ (entriesOf st round.id)))

/-- Winner selection from `settleRound`: when any tickets exist, draw
`ticket = parseInt(seed.slice(0, 12), 16) % totalEntries` and scan the 15
ships accumulating per-ship qty; `winningShip` stays 0 when no tickets
exist, when the parse is `NaN` (every `NaN < acc` is false) or when the
loop never breaks. -/
def settleWinning (es : List Entry) (total : ℚ) (seed : String) : Nat :=
  if 0 < total then
    match parseIntHex (seed.data.take 12) with
    | none => 0
    | some v => (pickFrom (jsMod (v : ℚ) total) (fun i => shipQty es i) GE_SHIPS 0 0).getD 0
  else 0

/-- The winning ship index `settleRound` computes for a round on a state. -/
def settleShipOf (env : Env) (freshSecret : String) (st : St) (round : Round) : Nat :=
  settleWinning (entriesOf st round.id) (totalEntriesQ (entriesOf st round.id))
    (settleSeedOf env freshSecret st round)

/-- `potSol = Number(stats.totalEntries) * GE_ENTRY_PRICE_SOL`. -/
def roundPot (env : Env) (st : St) (rid : Nat) : ℚ :=
  totalEntriesQ (entriesOf st rid) * env.entryPriceSol

/-- `treasuryCut = (potSol * GE_TREASURY_BPS) / 10000`. -/
def treasuryCutOf (env : Env) (st : St) (rid : Nat) : ℚ :=
  roundPot env st rid * env.treasuryBps / 10000

/-- `winnerPot = (potSol * GE_WINNER_BPS) / 10000`. -/
def winnerPotOf (env : Env) (st : St) (rid : Nat) : ℚ :=
  roundPot env st rid * env.winnerBps / 10000

/-- `participationPot = (potSol * GE_PARTICIPATION_BPS) / 10000`. -/
def participationPotOf (env : Env) (st : St) (rid : Nat) : ℚ :=
  roundPot env st rid * env.participationBps / 10000

/-- The `participants` query rows: all wallets of the round with their total
qty across all ships. -/
def partRowsOf (st : St) (rid : Nat) : List (String × ℚ) :=
  groupRows (entriesOf st rid)

/-- The entries of a round on one ship index. -/
def entriesOnShip (st : St) (rid : Nat) (ship : Nat) : List Entry :=
  (entriesOf st rid).filter (fun e => decide (e.ship_index = (ship : Int)))

/-- The `winners` query rows: wallets with entries on the winning ship with
their qty on that ship. -/
def winRowsOf (st : St) (rid : Nat) (ship : Nat) : List (String × ℚ) :=
  groupRows (entriesOnShip st rid ship)

/-- One payout loop: rows are skipped when `q <= 0 || total <= 0` and when
the pro-rata `amount = (pot * q) / total` is `<= 0`; kept rows carry their
amount. -/
def payoutRecs (pot total : ℚ) (rows : List (String × ℚ)) : List (String × ℚ) :=
  rows.filterMap (fun p =>
    if p.2 ≤ 0 ∨ total ≤ 0 then none
    else if pot * p.2 / total ≤ 0 then none
    else some (p.1, pot * p.2 / total))

/-- The `ON CONFLICT ... DO UPDATE SET balance = balance + EXCLUDED.balance`
upsert on `ge_balances`. -/
def bump (bal : String → ℚ) (w : String) (a : ℚ) : String → ℚ :=
  fun x => if x = w then bal x + a else bal x

/-- Write one payout row and its balance upsert per record, in order. -/
def applyRecs (rid : Nat) (st : St) (recs : List (String × ℚ)) : St :=
  recs.foldl
    (fun s p =>
      { s with
        payouts := s.payouts ++ [⟨rid, p.1, p.2⟩]
        balances := bump s.balances p.1 p.2 })
    st

/-- Summed amount of the payout records addressed to one wallet. -/
def recsFor (w : String) (recs : List (String × ℚ)) : ℚ :=
  ((recs.filter (fun p => decide (p.1 = w))).map (fun p => p.2)).sum

/-- All payout records of one settlement: the participation loop runs first,
then the winners loop. -/
def settleRecs (env : Env) (st : St) (rid : Nat) (ship : Nat) : List (String × ℚ) :=
  payoutRecs (participationPotOf env st rid) (rowsTotal (partRowsOf st rid)) (partRowsOf st rid)
    ++ payoutRecs (winnerPotOf env st rid) (rowsTotal (winRowsOf st rid ship)) (winRowsOf st rid ship)

/-- The conditional settlement update's target: the row of `ge_rounds`
matching `WHERE id=$1 AND status='running'`. -/
def dbRunning (st : St) (rid : Nat) : Option Round :=
  st.rounds.find? (fun r => decide (r.id = rid ∧ r.status = RoundStatus.running))

/-- The row rewrite performed by the conditional
`UPDATE ge_rounds SET status='settled', settled_at=NOW(),
winning_ship_index=$2, emissions_total=$3, seed=$4,
seed_commit=COALESCE(seed_commit,$5), seed_reveal=COALESCE(seed_reveal,$6)
WHERE id=$1 AND status='running'`. -/
def settleUpdateRound (now : ℚ) (winningShip : Nat) (emissionsTotal : ℚ)
    (seed commitFallback secretFallback : String) (rid : Nat) (r : Round) : Round :=
  if r.id = rid ∧ r.status = RoundStatus.running then
    { r with
      status := RoundStatus.settled
      settled_at := some now
      winning_ship_index := some winningShip
      emissions_total := emissionsTotal
      seed := some seed
      seed_commit := some (r.seed_commit.getD commitFallback)
      seed_reveal := some (r.seed_reveal.getD secretFallback) }
  else r

/-- Result of `settleRound`, carrying the fields of the returned object that
the claims mention. -/
inductive SettleResult
  | notRunning
  | notEnded
  | alreadySettled
  | settled (winningShip : Nat) (seed : String)
      (emissionsTotal potSol winnerPot participationPot treasuryCut : ℚ)
deriving DecidableEq, Repr

/-- Whether a result is the settling (transition-performing) one. -/
def SettleResult.isSettled : SettleResult → Bool
  | .settled _ _ _ _ _ _ _ => true
  | _ => false

/-- The `ge_rounds` table after the conditional settlement update of one
round (every row matching `id AND status='running'` is rewritten). -/
def settledRoundsOf (env : Env) (now : ℚ) (freshSecret : String) (st : St) (round : Round) :
    List Round :=
  st.rounds.map
    (settleUpdateRound now (settleShipOf env freshSecret st round) (roundPot env st round.id)
      (settleSeedOf env freshSecret st round) (env.H (settleSecret freshSecret round))
      (settleSecret freshSecret round) round.id)

/-- State after the conditional settlement update succeeded. -/
def settleSt1 (env : Env) (now : ℚ) (freshSecret : String) (st : St) (round : Round) : St :=
  { st with rounds := settledRoundsOf env now freshSecret st round }

/-- State after the treasury balance upsert, performed only when
`treasuryCut > 0`. -/
def settleSt2 (env : Env) (now : ℚ) (freshSecret : String) (st : St) (round : Round) : St :=
  if 0 < treasuryCutOf env st round.id then
    { settleSt1 env now freshSecret st round with
      balances := bump (settleSt1 env now freshSecret st round).balances "__treasury__"
        (treasuryCutOf env st round.id) }
  else settleSt1 env now freshSecret st round

/-- State at transaction commit: the conditional update, the treasury upsert,
then the participation and winner payout loops. -/
def settleFinal (env : Env) (now : ℚ) (freshSecret : String) (st : St) (round : Round) : St :=
  applyRecs round.id (settleSt2 env now freshSecret st round)
    (settleRecs env st round.id (settleShipOf env freshSecret st round))

/-- The body of `settleRound` past the snapshot guards: compute stats, seed,
winner and pools, then perform the transaction.  The conditional update
affecting zero rows (`dbRunning st round.id = none`) rolls the
transaction back, changing nothing; otherwise the round rows matching
`id AND status='running'` are rewritten, the treasury balance is bumped
when the cut is positive, and the participation and winner payout loops
run. -/
def settleCore (env : Env) (now : ℚ) (freshSecret : String) (st : St) (round : Round) :
    St × SettleResult :=
  match dbRunning st round.id with
  | none => (st, .alreadySettled)
  | some _ =>
    (settleFinal env now freshSecret st round,
      .settled (settleShipOf env freshSecret st round) (settleSeedOf env freshSecret st round)
        (roundPot env st round.id) (roundPot env st round.id)
        (winnerPotOf env st round.id) (participationPotOf env st round.id)
        (treasuryCutOf env st round.id))

/-- `settleRound(round)`: snapshot guards (`!round.started_at || status !==
"running"` and `now < ends_at`) then the settlement body. -/
def settleRound (env : Env) (now : ℚ) (freshSecret : String) (st : St) (round : Round) :
    St × SettleResult :=
  if round.started_at = none ∨ round.status ≠ RoundStatus.running then (st, .notRunning)
  else if now < round.ends_at then (st, .notEnded)
  else settleCore env now freshSecret st round

/-- `getCurrentRound()`: the most recent (highest-id) round whose status is
in `('filling','running','settled')`. -/
def getCurrentRound (st : St) : Option Round :=
  (st.rounds.filter (fun r =>
      decide (r.status = RoundStatus.filling ∨ r.status = RoundStatus.running ∨
        r.status = RoundStatus.settled))).foldl
    (fun acc r =>
      match acc with
      | none => some r
      | some a => if a.id < r.id then some r else some a)
    none

/-- `Number.isInteger(shipIndex) && shipIndex >= 0 && shipIndex < GE_SHIPS`,
where a missing field coerces to `NaN` (never an integer). -/
def shipIndexOk (si : Option ℚ) : Bool :=
  match si with
  | none => false
  | some v => decide (v.den = 1 ∧ 0 ≤ v ∧ v < (GE_SHIPS : ℚ))

/-- The integer value of a validated ship index. -/
def shipIndexVal (si : Option ℚ) : Int :=
  match si with
  | none => 0
  | some v => v.num

/-- Request body of the two entry-creation endpoints: `ship_index` and `qty`
as JSON numbers or missing. -/
structure EntryBody where
  ship_index : Option ℚ
  qty : Option ℚ
deriving DecidableEq, Repr

/-- Outcome of `POST /api/v2/ge/buy-entry`. -/
inductive BuyResult
  | unauthorized
  | misconfigured
  | noRunningRound
  | invalidShipIndex
  | roundClosed
  | invalidAmount
  | ok (intentId : String) (lamports : Int) (qty : ℚ)
deriving DecidableEq, Repr

/-- HTTP status code of each `buy-entry` outcome. -/
def BuyResult.statusCode : BuyResult → Nat
  | .unauthorized => 401
  | .misconfigured => 500
  | .noRunningRound => 400
  | .invalidShipIndex => 400
  | .roundClosed => 400
  | .invalidAmount => 400
  | .ok _ _ _ => 200

/-- `POST /api/v2/ge/buy-entry`: auth, config and running-round checks, qty
clamp, ship-index validation, entry-cutoff check, lamports computation,
then the intent insert.  `newIntentId` models `nanoid(24)`. -/
def buyEntry (env : Env) (now : ℚ) (newIntentId : String) (wallet : String)
    (body : EntryBody) (st : St) : St × BuyResult :=
  if wallet = "" then (st, .unauthorized)
  else if env.treasuryWallet = "" then (st, .misconfigured)
  else
    match getCurrentRound st with
    | none => (st, .noRunningRound)
    | some round =>
      if round.status ≠ RoundStatus.running then (st, .noRunningRound)
      else
        let qty := jsClampQty body.qty
        if ¬ shipIndexOk body.ship_index then (st, .invalidShipIndex)
        else if round.started_at ≠ none ∧ now > round.ends_at - env.cutoffMs then
          (st, .roundClosed)
        else
          let lamports := jsRound (qty * env.entryPriceSol * 1000000000)
          if lamports ≤ 0 then (st, .invalidAmount)
          else
            let intent : Intent :=
              { id := newIntentId
                wallet := wallet
                kind := .geEntry round.id (shipIndexVal body.ship_index) qty
                lamports := lamports
                expires_at := now + 10 * 60 * 1000 }
            ({ st with intents := st.intents ++ [intent] }, .ok newIntentId lamports qty)

/-- Outcome of `POST /api/v2/ge/enter`. -/
inductive EnterResult
  | noOpenRound
  | roundClosed
  | invalidShipIndex
  | roundEnded
  | okEntered
deriving DecidableEq, Repr

/-- `POST /api/v2/ge/enter` (free path): cutoff check, ship validation, the
entry insert, then the strict post-insert re-check of the reloaded
current round (which can reject after the insert already happened). -/
def enterRound (env : Env) (now : ℚ) (wallet : String) (body : EntryBody) (st : St) :
    St × EnterResult :=
  match getCurrentRound st with
  | none => (st, .noOpenRound)
  | some round =>
    if round.started_at ≠ none ∧ now > round.ends_at - env.cutoffMs then (st, .roundClosed)
    else
      let qty := jsClampQty body.qty
      if ¬ shipIndexOk body.ship_index then (st, .invalidShipIndex)
      else
        let st1 : St :=
          { st with entries := st.entries ++ [⟨round.id, wallet, shipIndexVal body.ship_index, qty⟩] }
        match getCurrentRound st1 with
        | some updated =>
          if updated.id = round.id ∧ updated.started_at ≠ none ∧ now > updated.ends_at then
            (st1, .roundEnded)
          else (st1, .okEntered)
        | none => (st1, .okEntered)

/-- Outcome of `POST /api/v2/ge/confirm-entry`. -/
inductive ConfirmResult
  | missingFields
  | invalidIntent
  | walletMismatch
  | intentExpired
  | kindMismatch
  | alreadyProcessed
  | invalidPayment
  | roundNotRunning
  | entryClosed
  | okConfirmed (roundId : Nat)
deriving DecidableEq, Repr

/-- Whether a confirm outcome is the success path. -/
def ConfirmResult.isOk : ConfirmResult → Bool
  | .okConfirmed _ => true
  | _ => false

/-- `lamportsToSol`. -/
def lamportsToSolQ (l : Int) : ℚ := (l : ℚ) / 1000000000

/-- `POST /api/v2/ge/confirm-entry`: field presence, intent lookup and
checks, the payments replay check, external verification (`verifyOk`
parameter), round re-validation and cutoff re-check, then one
transaction inserting the payment, deleting the intent and inserting
the entry. -/
def confirmEntry (env : Env) (now : ℚ) (verifyOk : Bool) (st : St)
    (wallet signature intentId : String) : St × ConfirmResult :=
  if wallet = "" ∨ signature = "" ∨ intentId = "" then (st, .missingFields)
  else
    match st.intents.find? (fun it => decide (it.id = intentId)) with
    | none => (st, .invalidIntent)
    | some row =>
      if row.wallet ≠ wallet then (st, .walletMismatch)
      else if row.expires_at < now then (st, .intentExpired)
      else
        match row.kind with
        | .otherKind _ => (st, .kindMismatch)
        | .geEntry roundId shipIndex qty =>
          if (st.payments.find? (fun p => decide (p.signature = signature))).isSome then
            (st, .alreadyProcessed)
          else if ¬ verifyOk then (st, .invalidPayment)
          else
            match st.rounds.find? (fun r => decide (r.id = roundId)) with
            | none => (st, .roundNotRunning)
            | some r =>
              if r.status ≠ RoundStatus.running then (st, .roundNotRunning)
              else if now > r.ends_at - env.cutoffMs then (st, .entryClosed)
              else
                let payment : Payment :=
                  { signature := signature
                    wallet := wallet
                    kind := "ge_entry:" ++ toString roundId
                    amount_sol := lamportsToSolQ row.lamports }
                ({ st with
                    payments := st.payments ++ [payment]
                    intents := st.intents.filter (fun it => decide (¬ it.id = intentId))
                    entries := st.entries ++ [⟨roundId, wallet, shipIndex, qty⟩] },
                  .okConfirmed roundId)

/-- `SELECT COALESCE(SUM(amount),0) FROM ge_payouts WHERE round_id=$1`: the
sum of the payout amounts written for one round. -/
def payoutsForRound (st : St) (rid : Nat) : ℚ :=
  ((st.payouts.filter (fun p => decide (p.round_id = rid))).map (fun p => p.amount)).sum

/-! ## Concrete sample data for witnesses and counterexamples -/

/-- Sample environment with the default configuration (`GE_ENTRY_PRICE_SOL
0.1`, bps `7000/2500/500`, cutoff `15000`) and a fixed digest value whose
first 12 hex digits read `0x00000000000b = 11`. -/
def envA : Env :=
  { H := fun _ => "00000000000bdeadbeef1234"
    isoStr := fun _ => "iso"
    numStr := fun _ => "num"
    entryPriceSol := 1 / 10
    winnerBps := 7000
    participationBps := 2500
    treasuryBps := 500
    cutoffMs := 15000
    treasuryWallet := "tw" }

/-- Sample running round that ends at t = 1000. -/
def roundA : Round :=
  { id := 1
    status := RoundStatus.running
    started_at := some 0
    ends_at := 1000
    winning_ship_index := none
    emissions_total := 0
    seed := none
    seed_commit := some "c"
    seed_reveal := some "s"
    settled_at := none }

/-- Sample state for settlement: wallet `a` holds 2 tickets on ship 0 and
wallet `b` holds 3 tickets on ship 1. -/
def stA : St :=
  { rounds := [roundA]
    entries := [⟨1, "a", 0, 2⟩, ⟨1, "b", 1, 3⟩]
    intents := []
    payments := []
    payouts := []
    balances := fun _ => 0 }

/-- Sample state with an empty round (no entries at all). -/
def stE : St :=
  { rounds := [roundA]
    entries := []
    intents := []
    payments := []
    payouts := []
    balances := fun _ => 0 }

/-- Sample running round that ends far in the future (t = 1000000). -/
def roundB : Round :=
  { id := 1
    status := RoundStatus.running
    started_at := some 0
    ends_at := 1000000
    winning_ship_index := none
    emissions_total := 0
    seed := none
    seed_commit := some "c"
    seed_reveal := some "s"
    settled_at := none }

/-- Sample state for the entry endpoints: one running round, one live intent
and one already-recorded payment with reference `sig1`. -/
def stB : St :=
  { rounds := [roundB]
    entries := []
    intents := [⟨"i1", "w", .geEntry 1 3 1, 100000000, 2000000⟩]
    payments := [⟨"sig1", "w", "ge_entry:1", 1 / 10⟩]
    payouts := []
    balances := fun _ => 0 }

/-- Misconfigured environment whose bps shares sum to 20000. -/
def envX : Env :=
  { H := fun _ => "ab"
    isoStr := fun _ => "iso"
    numStr := fun _ => "num"
    entryPriceSol := 1
    winnerBps := 20000
    participationBps := 0
    treasuryBps := 0
    cutoffMs := 15000
    treasuryWallet := "tw" }

/-- Sample state with a single one-ticket entry on the round of `stA`. -/
def stX : St :=
  { rounds := [roundA]
    entries := [⟨1, "a", 0, 1⟩]
    intents := []
    payments := []
    payouts := []
    balances := fun _ => 0 }

/-! ## Helper lemmas about the payout writer -/

theorem applyRecs_cons (rid : Nat) (st : St) (p : String × ℚ) (ps : List (String × ℚ)) :
    applyRecs rid st (p :: ps) =
      applyRecs rid
        { st with
          payouts := st.payouts ++ [⟨rid, p.1, p.2⟩]
          balances := bump st.balances p.1 p.2 } ps := rfl

theorem applyRecs_rounds (rid : Nat) :
    ∀ (recs : List (String × ℚ)) (st : St), (applyRecs rid st recs).rounds = st.rounds
  | [], _ => rfl
  | _ :: ps, st => applyRecs_rounds rid ps _

theorem applyRecs_entries (rid : Nat) :
    ∀ (recs : List (String × ℚ)) (st : St), (applyRecs rid st recs).entries = st.entries
  | [], _ => rfl
  | _ :: ps, st => applyRecs_entries rid ps _

theorem applyRecs_intents (rid : Nat) :
    ∀ (recs : List (String × ℚ)) (st : St), (applyRecs rid st recs).intents = st.intents
  | [], _ => rfl
  | _ :: ps, st => applyRecs_intents rid ps _

theorem applyRecs_payments (rid : Nat) :
    ∀ (recs : List (String × ℚ)) (st : St), (applyRecs rid st recs).payments = st.payments
  | [], _ => rfl
  | _ :: ps, st => applyRecs_payments rid ps _

theorem applyRecs_payouts (rid : Nat) :
    ∀ (recs : List (String × ℚ)) (st : St),
      (applyRecs rid st recs).payouts =
        st.payouts ++ recs.map (fun p => (⟨rid, p.1, p.2⟩ : Payout))
  | [], st => by simp [applyRecs]
  | p :: ps, st => by
    rw [applyRecs_cons, applyRecs_payouts rid ps]
    simp

theorem recsFor_nil (w : String) : recsFor w [] = 0 := rfl

theorem recsFor_cons (w : String) (p : String × ℚ) (ps : List (String × ℚ)) :
    recsFor w (p :: ps) = (if p.1 = w then p.2 else 0) + recsFor w ps := by
  by_cases h : p.1 = w <;> simp [recsFor, List.filter_cons, h]

theorem recsFor_append (w : String) (a b : List (String × ℚ)) :
    recsFor w (a ++ b) = recsFor w a + recsFor w b := by
  simp [recsFor, List.filter_append]

theorem applyRecs_balances (rid : Nat) :
    ∀ (recs : List (String × ℚ)) (st : St) (w : String),
      (applyRecs rid st recs).balances w = st.balances w + recsFor w recs
  | [], st, w => by simp [applyRecs, recsFor]
  | p :: ps, st, w => by
    rw [applyRecs_cons, applyRecs_balances rid ps, recsFor_cons]
    by_cases h : p.1 = w
    · subst h
      simp only [bump, if_pos rfl, if_true, eq_self_iff_true]
      ring
    · have h' : ¬ w = p.1 := fun hw => h hw.symm
      simp only [bump, if_neg h', if_neg h]
      ring

theorem payoutRecs_mem_pos {pot t : ℚ} {rows : List (String × ℚ)} {p : String × ℚ}
    (h : p ∈ payoutRecs pot t rows) : 0 < p.2 := by
  rcases List.mem_filterMap.mp h with ⟨a, _, hfa⟩
  by_cases h1 : a.2 ≤ 0 ∨ t ≤ 0
  · simp [h1] at hfa
  · by_cases h2 : pot * a.2 / t ≤ 0
    · simp [h1, h2] at hfa
    · simp only [h1, h2, if_false, Option.some.injEq] at hfa
      rw [← hfa]
      exact lt_of_not_le h2

theorem recsFor_nonneg (w : String) (recs : List (String × ℚ))
    (h : ∀ p ∈ recs, 0 ≤ p.2) : 0 ≤ recsFor w recs := by
  refine List.sum_nonneg ?_
  intro x hx
  rcases List.mem_map.mp hx with ⟨p, hp, rfl⟩
  exact h p (List.mem_of_mem_filter hp)

theorem mem_payoutRecs_of_mem {pot t q : ℚ} {rows : List (String × ℚ)} {w : String}
    (hm : (w, q) ∈ rows) (h1 : ¬ (q ≤ 0 ∨ t ≤ 0)) (h2 : ¬ (pot * q / t ≤ 0)) :
    (w, pot * q / t) ∈ payoutRecs pot t rows :=
  List.mem_filterMap.mpr ⟨(w, q), hm, by simp [h1, h2]⟩

theorem payoutRecs_nil (pot t : ℚ) : payoutRecs pot t [] = [] := rfl

theorem payoutRecs_cons (pot t : ℚ) (p : String × ℚ) (ps : List (String × ℚ)) :
    payoutRecs pot t (p :: ps) =
      if p.2 ≤ 0 ∨ t ≤ 0 then payoutRecs pot t ps
      else if pot * p.2 / t ≤ 0 then payoutRecs pot t ps
      else (p.1, pot * p.2 / t) :: payoutRecs pot t ps := by
  by_cases h1 : p.2 ≤ 0 ∨ t ≤ 0
  · simp [payoutRecs, List.filterMap_cons, h1]
  · by_cases h2 : pot * p.2 / t ≤ 0 <;>
      simp [payoutRecs, List.filterMap_cons, h1, h2]

theorem nodup_fst_cons {p : String × ℚ} {ps : List (String × ℚ)}
    (hnd : ((p :: ps).map Prod.fst).Nodup) :
    p.1 ∉ ps.map Prod.fst ∧ (ps.map Prod.fst).Nodup := by
  rw [List.map_cons] at hnd
  exact List.nodup_cons.mp hnd

theorem recsFor_payoutRecs_not_mem (pot t : ℚ) :
    ∀ (rows : List (String × ℚ)) (w : String), w ∉ rows.map Prod.fst →
      recsFor w (payoutRecs pot t rows) = 0
  | [], _, _ => rfl
  | p :: ps, w, h => by
    have hw : ¬ p.1 = w := by
      intro he
      exact h (by simp [he])
    have hps : w ∉ ps.map Prod.fst := fun hm => h (by simp [hm])
    have ih := recsFor_payoutRecs_not_mem pot t ps w hps
    rw [payoutRecs_cons]
    by_cases h1 : p.2 ≤ 0 ∨ t ≤ 0
    · rw [if_pos h1]; exact ih
    · rw [if_neg h1]
      by_cases h2 : pot * p.2 / t ≤ 0
      · rw [if_pos h2]; exact ih
      · rw [if_neg h2, recsFor_cons, if_neg hw, ih]
        ring

theorem recsFor_payoutRecs_mem (pot t : ℚ) :
    ∀ (rows : List (String × ℚ)) (w : String) (q : ℚ),
      (rows.map Prod.fst).Nodup → (w, q) ∈ rows →
      recsFor w (payoutRecs pot t rows) =
        if q ≤ 0 ∨ t ≤ 0 then 0 else if pot * q / t ≤ 0 then 0 else pot * q / t
  | [], w, q, _, hm => by simp at hm
  | p :: ps, w, q, hnd, hm => by
    have hnd' : (ps.map Prod.fst).Nodup := (nodup_fst_cons hnd).2
    rw [payoutRecs_cons]
    rcases List.mem_cons.mp hm with he | hm'
    · have hp1 : p.1 = w := by rw [← he]
      have hp2 : p.2 = q := by rw [← he]
      have hnm : w ∉ ps.map Prod.fst := hp1 ▸ (nodup_fst_cons hnd).1
      have hz := recsFor_payoutRecs_not_mem pot t ps w hnm
      rw [hp1, hp2]
      by_cases h1 : q ≤ 0 ∨ t ≤ 0
      · rw [if_pos h1, if_pos h1]; exact hz
      · rw [if_neg h1, if_neg h1]
        by_cases h2 : pot * q / t ≤ 0
        · rw [if_pos h2, if_pos h2]; exact hz
        · rw [if_neg h2, if_neg h2, recsFor_cons, if_pos rfl, hz]
          ring
    · have hwps : w ∈ ps.map Prod.fst := List.mem_map.mpr ⟨(w, q), hm', rfl⟩
      have hne : ¬ p.1 = w := fun he1 => (nodup_fst_cons hnd).1 (he1 ▸ hwps)
      have ih := recsFor_payoutRecs_mem pot t ps w q hnd' hm'
      by_cases h1 : p.2 ≤ 0 ∨ t ≤ 0
      · rw [if_pos h1]; exact ih
      · rw [if_neg h1]
        by_cases h2 : pot * p.2 / t ≤ 0
        · rw [if_pos h2]; exact ih
        · rw [if_neg h2, recsFor_cons, if_neg hne, ih]
          ring

/-! ## Pool-bound lemmas -/

theorem rowsTotal_nil : rowsTotal [] = 0 := rfl

theorem rowsTotal_cons (p : String × ℚ) (ps : List (String × ℚ)) :
    rowsTotal (p :: ps) = p.2 + rowsTotal ps := by
  simp [rowsTotal]

theorem rowsTotal_append (a b : List (String × ℚ)) :
    rowsTotal (a ++ b) = rowsTotal a + rowsTotal b := by
  simp [rowsTotal]

theorem payoutRecs_rowsTotal_aux (pot t : ℚ) (hpot : 0 ≤ pot) (ht : 0 < t) :
    ∀ rows : List (String × ℚ), (∀ p ∈ rows, 0 ≤ p.2) →
      rowsTotal (payoutRecs pot t rows) ≤ pot / t * rowsTotal rows
  | [], _ => by simp [payoutRecs, rowsTotal]
  | p :: ps, h => by
    have hq : 0 ≤ p.2 := h p (List.mem_cons_self p ps)
    have ih := payoutRecs_rowsTotal_aux pot t hpot ht ps
      (fun x hx => h x (List.mem_cons_of_mem p hx))
    have hdivnn : 0 ≤ pot / t := div_nonneg hpot ht.le
    rw [payoutRecs_cons, rowsTotal_cons]
    by_cases h1 : p.2 ≤ 0 ∨ t ≤ 0
    · rw [if_pos h1]
      nlinarith [ih]
    · rw [if_neg h1]
      by_cases h2 : pot * p.2 / t ≤ 0
      · rw [if_pos h2]
        nlinarith [ih]
      · rw [if_neg h2, rowsTotal_cons]
        have : pot * p.2 / t = pot / t * p.2 := by ring
        nlinarith [ih]

theorem payoutRecs_rowsTotal_le (pot t : ℚ) (rows : List (String × ℚ)) (hpot : 0 ≤ pot)
    (hrows : ∀ p ∈ rows, 0 ≤ p.2) (htot : rowsTotal rows ≤ t) :
    rowsTotal (payoutRecs pot t rows) ≤ pot := by
  rcases le_or_lt t 0 with ht | ht
  · have hnil : payoutRecs pot t rows = [] := by
      refine List.filterMap_eq_nil_iff.mpr ?_
      intro p _
      simp [Or.inr ht]
    rw [hnil, rowsTotal_nil]
    exact hpot
  · calc rowsTotal (payoutRecs pot t rows) ≤ pot / t * rowsTotal rows :=
          payoutRecs_rowsTotal_aux pot t hpot ht rows hrows
      _ ≤ pot / t * t := mul_le_mul_of_nonneg_left htot (div_nonneg hpot ht.le)
      _ = pot := div_mul_cancel₀ pot ht.ne'

/-! ## Group-by lemmas -/

theorem qtyOf_nonneg (es : List Entry) (w : String) (h : ∀ e ∈ es, 0 ≤ e.qty) :
    0 ≤ qtyOf es w := by
  refine List.sum_nonneg ?_
  intro x hx
  rcases List.mem_map.mp hx with ⟨e, he, rfl⟩
  exact h e (List.mem_of_mem_filter he)

theorem qtyOf_pos (es : List Entry) (w : String) (h : ∀ e ∈ es, 0 < e.qty)
    (hw : w ∈ walletsOf es) : 0 < qtyOf es w := by
  rcases List.mem_map.mp (List.mem_dedup.mp hw) with ⟨e, he, hew⟩
  have hef : e ∈ es.filter (fun e => decide (e.wallet = w)) :=
    List.mem_filter.mpr ⟨he, by simp [hew]⟩
  refine List.sum_pos _ ?_ ?_
  · intro x hx
    rcases List.mem_map.mp hx with ⟨e', he', rfl⟩
    exact h e' (List.mem_of_mem_filter he')
  · exact List.ne_nil_of_mem (List.mem_map.mpr ⟨e, hef, rfl⟩)

theorem groupRows_snd_nonneg (es : List Entry) (h : ∀ e ∈ es, 0 ≤ e.qty) :
    ∀ p ∈ groupRows es, 0 ≤ p.2 := by
  intro p hp
  rcases List.mem_map.mp hp with ⟨w, _, rfl⟩
  exact qtyOf_nonneg es w h

theorem groupRows_fst (es : List Entry) : (groupRows es).map Prod.fst = walletsOf es := by
  simp only [groupRows, List.map_map]
  exact List.map_id _

theorem groupRows_fst_nodup (es : List Entry) : ((groupRows es).map Prod.fst).Nodup := by
  rw [groupRows_fst]
  exact List.nodup_dedup _

theorem mem_groupRows (es : List Entry) {w : String} (hw : w ∈ walletsOf es) :
    (w, qtyOf es w) ∈ groupRows es :=
  List.mem_map.mpr ⟨w, hw, rfl⟩

theorem wallet_mem_walletsOf {es : List Entry} {e : Entry} (he : e ∈ es) :
    e.wallet ∈ walletsOf es :=
  List.mem_dedup.mpr (List.mem_map.mpr ⟨e, he, rfl⟩)

/-! ## The total over a group-by equals the plain total -/

theorem sum_map_add_q {α : Type} (f g : α → ℚ) :
    ∀ l : List α, (l.map (fun x => f x + g x)).sum = (l.map f).sum + (l.map g).sum
  | [] => by simp
  | x :: xs => by
    simp only [List.map_cons, List.sum_cons, sum_map_add_q f g xs]
    ring

theorem sum_ite_zero_not_mem (x : String) (c : ℚ) :
    ∀ l : List String, x ∉ l → (l.map (fun w => if x = w then c else 0)).sum = 0
  | [], _ => rfl
  | a :: l, h => by
    have hxa : ¬ x = a := fun he => h (he ▸ List.mem_cons_self a l)
    have hxl : x ∉ l := fun hm => h (List.mem_cons_of_mem a hm)
    simp only [List.map_cons, List.sum_cons, if_neg hxa,
      sum_ite_zero_not_mem x c l hxl]
    ring

theorem sum_ite_eq_of_nodup (x : String) (c : ℚ) :
    ∀ l : List String, l.Nodup → x ∈ l →
      (l.map (fun w => if x = w then c else 0)).sum = c
  | [], _, hx => by simp at hx
  | a :: l, hnd, hx => by
    rcases List.nodup_cons.mp hnd with ⟨hal, hl⟩
    simp only [List.map_cons, List.sum_cons]
    rcases List.mem_cons.mp hx with rfl | hxl
    · rw [if_pos rfl, sum_ite_zero_not_mem x c l hal]
      ring
    · have hxa : ¬ x = a := fun he => hal (he ▸ hxl)
      rw [if_neg hxa, sum_ite_eq_of_nodup x c l hl hxl]
      ring

theorem qtyOf_cons (e : Entry) (es : List Entry) (w : String) :
    qtyOf (e :: es) w = (if e.wallet = w then e.qty else 0) + qtyOf es w := by
  by_cases h : e.wallet = w <;> simp [qtyOf, List.filter_cons, h]

theorem sum_qtyOf (ws : List String) (hnd : ws.Nodup) :
    ∀ es : List Entry, (∀ e ∈ es, e.wallet ∈ ws) →
      (ws.map (fun w => qtyOf es w)).sum = totalTickets es
  | [], _ => by
    have : ∀ w ∈ ws, qtyOf ([] : List Entry) w = 0 := by
      intro w _
      rfl
    simp [totalTickets, List.map_congr_left this]
  | e :: es, hcov => by
    have hcov' : ∀ x ∈ es, x.wallet ∈ ws := fun x hx => hcov x (List.mem_cons_of_mem e hx)
    have he : e.wallet ∈ ws := hcov e (List.mem_cons_self e es)
    have hmap : ws.map (fun w => qtyOf (e :: es) w) =
        ws.map (fun w => (if e.wallet = w then e.qty else 0) + qtyOf es w) :=
      List.map_congr_left (fun w _ => qtyOf_cons e es w)
    rw [hmap, sum_map_add_q, sum_ite_eq_of_nodup e.wallet e.qty ws hnd he,
      sum_qtyOf ws hnd es hcov']
    simp [totalTickets]

theorem rowsTotal_groupRows (es : List Entry) : rowsTotal (groupRows es) = totalTickets es := by
  have h1 : rowsTotal (groupRows es) = ((walletsOf es).map (fun w => qtyOf es w)).sum := by
    simp [rowsTotal, groupRows, List.map_map]
    rfl
  rw [h1]
  exact sum_qtyOf (walletsOf es) (List.nodup_dedup _) es (fun e he => wallet_mem_walletsOf he)

/-! ## Structural lemmas about settlement -/

theorem settleSt2_payouts (env : Env) (now : ℚ) (fs : String) (st : St) (round : Round) :
    (settleSt2 env now fs st round).payouts = st.payouts := by
  unfold settleSt2
  split <;> rfl

theorem settleSt2_rounds (env : Env) (now : ℚ) (fs : String) (st : St) (round : Round) :
    (settleSt2 env now fs st round).rounds = settledRoundsOf env now fs st round := by
  unfold settleSt2
  split <;> rfl

theorem settleSt2_entries (env : Env) (now : ℚ) (fs : String) (st : St) (round : Round) :
    (settleSt2 env now fs st round).entries = st.entries := by
  unfold settleSt2
  split <;> rfl

theorem settleSt2_balances (env : Env) (now : ℚ) (fs : String) (st : St) (round : Round)
    (w : String) (hw : ¬ w = "__treasury__") :
    (settleSt2 env now fs st round).balances w = st.balances w := by
  unfold settleSt2
  split
  · simp [settleSt1, bump, if_neg hw]
  · rfl

theorem settleFinal_payouts (env : Env) (now : ℚ) (fs : String) (st : St) (round : Round) :
    (settleFinal env now fs st round).payouts =
      st.payouts ++ (settleRecs env st round.id (settleShipOf env fs st round)).map
        (fun p => (⟨round.id, p.1, p.2⟩ : Payout)) := by
  unfold settleFinal
  rw [applyRecs_payouts, settleSt2_payouts]

theorem settleFinal_rounds (env : Env) (now : ℚ) (fs : String) (st : St) (round : Round) :
    (settleFinal env now fs st round).rounds = settledRoundsOf env now fs st round := by
  unfold settleFinal
  rw [applyRecs_rounds, settleSt2_rounds]

theorem settleFinal_balances (env : Env) (now : ℚ) (fs : String) (st : St) (round : Round)
    (w : String) (hw : ¬ w = "__treasury__") :
    (settleFinal env now fs st round).balances w =
      st.balances w + recsFor w (settleRecs env st round.id (settleShipOf env fs st round)) := by
  unfold settleFinal
  rw [applyRecs_balances, settleSt2_balances env now fs st round w hw]

theorem settle_noop_of_none (env : Env) (now : ℚ) (fs : String) (st : St) (round : Round)
    (h : dbRunning st round.id = none) :
    (settleRound env now fs st round).1 = st ∧
      ((settleRound env now fs st round).2).isSettled = false := by
  unfold settleRound
  by_cases h1 : round.started_at = none ∨ round.status ≠ RoundStatus.running
  · rw [if_pos h1]
    exact ⟨rfl, rfl⟩
  · rw [if_neg h1]
    by_cases h2 : now < round.ends_at
    · rw [if_pos h2]
      exact ⟨rfl, rfl⟩
    · rw [if_neg h2]
      unfold settleCore
      rw [h]
      exact ⟨rfl, rfl⟩

theorem settleCore_of_some (env : Env) (now : ℚ) (fs : String) (st : St) (round : Round)
    {r0 : Round} (h : dbRunning st round.id = some r0) :
    settleCore env now fs st round =
      (settleFinal env now fs st round,
        .settled (settleShipOf env fs st round) (settleSeedOf env fs st round)
          (roundPot env st round.id) (roundPot env st round.id)
          (winnerPotOf env st round.id) (participationPotOf env st round.id)
          (treasuryCutOf env st round.id)) := by
  unfold settleCore
  rw [h]

theorem settleRound_run (env : Env) (now : ℚ) (fs : String) (st : St) (round : Round)
    (hs : round.started_at ≠ none) (hr : round.status = RoundStatus.running)
    (he : ¬ now < round.ends_at) :
    settleRound env now fs st round = settleCore env now fs st round := by
  unfold settleRound
  rw [if_neg (by simp [hs, hr]), if_neg he]

/-! ## The ticket draw -/

theorem jsMod_natCast (v n : Nat) (hn : 0 < n) :
    jsMod (v : ℚ) (n : ℚ) = ((v % n : Nat) : ℚ) := by
  have hq : (0 : ℚ) ≤ (v : ℚ) / (n : ℚ) :=
    div_nonneg (Nat.cast_nonneg v) (Nat.cast_nonneg n)
  have h1 : (v : ℤ) / (n : ℤ) = ((v / n : Nat) : ℤ) := (Int.ofNat_tdiv v n).symm ▸ rfl
  have hmod := Nat.div_add_mod v n
  have hcast : ((n * (v / n) + v % n : Nat) : ℚ) = ((v : Nat) : ℚ) := by
    rw [hmod]
  push_cast at hcast
  unfold jsMod ratTrunc
  rw [if_pos hq, Rat.floor_natCast_div_natCast v n, h1, Int.cast_natCast]
  linarith [hcast]

theorem sum_range_succ_q (q : Nat → ℚ) (i : Nat) :
    ((List.range (i + 1)).map q).sum = ((List.range i).map q).sum + q i := by
  rw [List.range_succ]
  simp

theorem pickFrom_spec (t : ℚ) (q : Nat → ℚ) :
    ∀ (fuel i : Nat),
      pickFrom t q fuel i (((List.range i).map q).sum) =
        (List.range' i fuel).find? (fun j => decide (t < ((List.range (j + 1)).map q).sum))
  | 0, i => rfl
  | fuel + 1, i => by
    rw [show List.range' i (fuel + 1) = i :: List.range' (i + 1) fuel from rfl]
    rw [List.find?_cons]
    unfold pickFrom
    simp only
    by_cases ht : t < ((List.range i).map q).sum + q i
    · rw [if_pos ht]
      have : t < ((List.range (i + 1)).map q).sum := by rw [sum_range_succ_q]; exact ht
      simp [this]
    · rw [if_neg ht]
      have hns : ¬ t < ((List.range (i + 1)).map q).sum := by
        rw [sum_range_succ_q]; exact ht
      have hd : decide (t < ((List.range (i + 1)).map q).sum) = false := decide_eq_false hns
      simp only [hd, Bool.false_eq_true, if_false]
      rw [← sum_range_succ_q q i]
      exact pickFrom_spec t q fuel (i + 1)

theorem cumQty_top (es : List Entry) : cumQty es GE_SHIPS = totalEntriesQ es := rfl

theorem firstCumWinner_isSome (t : ℚ) (es : List Entry) (h : t < totalEntriesQ es) :
    (firstCumWinner t es).isSome := by
  rw [firstCumWinner, List.find?_isSome]
  refine ⟨GE_SHIPS - 1, ?_, ?_⟩
  · simp [GE_SHIPS]
  · simpa [GE_SHIPS, cumQty_top] using h

theorem settleWinning_first (es : List Entry) (total : ℚ) (seed : String) (v : Nat)
    (htot : 0 < total) (hp : parseIntHex (seed.data.take 12) = some v) :
    settleWinning es total seed = (firstCumWinner (jsMod (v : ℚ) total) es).getD 0 := by
  unfold settleWinning
  rw [if_pos htot, hp]
  show (pickFrom (jsMod (v : ℚ) total) (fun i => shipQty es i) GE_SHIPS 0 0).getD 0 = _
  have hspec := pickFrom_spec (jsMod (v : ℚ) total) (fun i => shipQty es i) GE_SHIPS 0
  rw [show ((List.range 0).map (fun i => shipQty es i)).sum = (0 : ℚ) from rfl] at hspec
  rw [hspec, firstCumWinner, List.range_eq_range']
  rfl

/-! ## Monotonicity helpers -/

theorem settleRecs_pos (env : Env) (st : St) (rid ship : Nat) (p : String × ℚ)
    (hp : p ∈ settleRecs env st rid ship) : 0 < p.2 := by
  rcases List.mem_append.mp hp with h | h
  · exact payoutRecs_mem_pos h
  · exact payoutRecs_mem_pos h

theorem settleSt2_balances_ge (env : Env) (now : ℚ) (fs : String) (st : St) (round : Round)
    (w : String) : st.balances w ≤ (settleSt2 env now fs st round).balances w := by
  unfold settleSt2
  split
  · rename_i h
    show st.balances w ≤ bump (settleSt1 env now fs st round).balances "__treasury__"
      (treasuryCutOf env st round.id) w
    unfold bump
    by_cases hw : w = "__treasury__"
    · rw [if_pos hw]
      show st.balances w ≤ st.balances w + treasuryCutOf env st round.id
      linarith
    · rw [if_neg hw]
      exact le_refl _
  · exact le_refl _

theorem settleFinal_balances_ge (env : Env) (now : ℚ) (fs : String) (st : St) (round : Round)
    (w : String) : st.balances w ≤ (settleFinal env now fs st round).balances w := by
  unfold settleFinal
  rw [applyRecs_balances]
  have h1 := settleSt2_balances_ge env now fs st round w
  have h2 : 0 ≤ recsFor w (settleRecs env st round.id (settleShipOf env fs st round)) :=
    recsFor_nonneg _ _ (fun p hp => (settleRecs_pos env st round.id _ p hp).le)
  linarith

theorem settleRound_cases (env : Env) (now : ℚ) (fs : String) (st : St) (round : Round) :
    ((settleRound env now fs st round).1 = st ∧
        ((settleRound env now fs st round).2).isSettled = false) ∨
      ((∃ r0, dbRunning st round.id = some r0) ∧
        settleRound env now fs st round =
          (settleFinal env now fs st round,
            .settled (settleShipOf env fs st round) (settleSeedOf env fs st round)
              (roundPot env st round.id) (roundPot env st round.id)
              (winnerPotOf env st round.id) (participationPotOf env st round.id)
              (treasuryCutOf env st round.id))) := by
  unfold settleRound
  by_cases h1 : round.started_at = none ∨ round.status ≠ RoundStatus.running
  · rw [if_pos h1]
    exact Or.inl ⟨rfl, rfl⟩
  · rw [if_neg h1]
    by_cases h2 : now < round.ends_at
    · rw [if_pos h2]
      exact Or.inl ⟨rfl, rfl⟩
    · rw [if_neg h2]
      cases hdb : dbRunning st round.id with
      | none =>
        left
        unfold settleCore
        rw [hdb]
        exact ⟨rfl, rfl⟩
      | some r0 =>
        right
        exact ⟨⟨r0, rfl⟩, settleCore_of_some env now fs st round hdb⟩

theorem settleRound_balance_mono (env : Env) (now : ℚ) (fs : String) (st : St) (round : Round)
    (w : String) : st.balances w ≤ (settleRound env now fs st round).1.balances w := by
  rcases settleRound_cases env now fs st round with ⟨h, _⟩ | ⟨_, h⟩
  · rw [h]
  · rw [h]
    exact settleFinal_balances_ge env now fs st round w

theorem settleRound_not_settled_eq (env : Env) (now : ℚ) (fs : String) (st : St) (round : Round)
    (h : ((settleRound env now fs st round).2).isSettled = false) :
    (settleRound env now fs st round).1 = st := by
  rcases settleRound_cases env now fs st round with ⟨h1, _⟩ | ⟨_, h1⟩
  · exact h1
  · rw [h1] at h
    simp [SettleResult.isSettled] at h

theorem settleRound_settled_shape (env : Env) (now : ℚ) (fs : String) (st : St) (round : Round)
    (h : ((settleRound env now fs st round).2).isSettled = true) :
    (∃ r0, dbRunning st round.id = some r0) ∧
      settleRound env now fs st round =
        (settleFinal env now fs st round,
          .settled (settleShipOf env fs st round) (settleSeedOf env fs st round)
            (roundPot env st round.id) (roundPot env st round.id)
            (winnerPotOf env st round.id) (participationPotOf env st round.id)
            (treasuryCutOf env st round.id)) := by
  rcases settleRound_cases env now fs st round with ⟨_, h1⟩ | h1
  · rw [h] at h1
    exact absurd h1 (by simp)
  · exact h1

theorem dbRunning_settleFinal (env : Env) (now : ℚ) (fs : String) (st : St) (round : Round) :
    dbRunning (settleFinal env now fs st round) round.id = none := by
  unfold dbRunning
  rw [settleFinal_rounds]
  refine List.find?_eq_none.mpr ?_
  intro x hx
  unfold settledRoundsOf at hx
  rcases List.mem_map.mp hx with ⟨r, _, rfl⟩
  unfold settleUpdateRound
  by_cases hc : r.id = round.id ∧ r.status = RoundStatus.running
  · rw [if_pos hc]
    simp
  · rw [if_neg hc]
    simp only [decide_eq_true_eq]
    exact hc

theorem settleFinal_round_mem (env : Env) (now : ℚ) (fs : String) (st : St) (round : Round)
    {r0 : Round} (hdb : dbRunning st round.id = some r0) :
    ∃ r1 ∈ (settleFinal env now fs st round).rounds,
      r1.id = round.id ∧ r1.status = RoundStatus.settled ∧
      r1.winning_ship_index = some (settleShipOf env fs st round) ∧
      r1.emissions_total = roundPot env st round.id ∧
      r1.seed = some (settleSeedOf env fs st round) := by
  have hdb' : st.rounds.find?
      (fun r => decide (r.id = round.id ∧ r.status = RoundStatus.running)) = some r0 := hdb
  have hmem : r0 ∈ st.rounds := List.mem_of_find?_eq_some hdb'
  have hp : r0.id = round.id ∧ r0.status = RoundStatus.running := by
    have hp' := List.find?_some hdb'
    simpa using hp'
  refine ⟨settleUpdateRound now (settleShipOf env fs st round) (roundPot env st round.id)
      (settleSeedOf env fs st round) (env.H (settleSecret fs round)) (settleSecret fs round)
      round.id r0, ?_, ?_⟩
  · rw [settleFinal_rounds]
    unfold settledRoundsOf
    exact List.mem_map_of_mem _ hmem
  · unfold settleUpdateRound
    rw [if_pos hp]
    exact ⟨hp.1, rfl, rfl, rfl, rfl⟩

/-- C1: for every round, the winning outcome is set at most once and only by
the single conditional update moving the round from `running` to
`settled`: (a) an invocation whose result is not the settling one leaves
the whole state unchanged (in particular it writes no payout rows and no
balance changes); (b) the settling invocation requires a `running` row in
the table, leaves no `running` row with that id behind, and is exactly
the write that sets `winning_ship_index`; (c) after a settling
invocation, any further invocation targeting the same round id is a
no-op; (d) the entry-creation and confirmation endpoints never modify
`ge_rounds`.  Hence of any number of racing settlement invocations
exactly one performs the transition. -/
theorem claim_C1_settlement_exactly_once :
    (∀ env now fs st round,
        ((settleRound env now fs st round).2).isSettled = false →
        (settleRound env now fs st round).1 = st) ∧
    (∀ env now fs st round,
        ((settleRound env now fs st round).2).isSettled = true →
        (∃ r0, dbRunning st round.id = some r0) ∧
          dbRunning (settleRound env now fs st round).1 round.id = none ∧
          (∃ r1 ∈ (settleRound env now fs st round).1.rounds,
            r1.id = round.id ∧ r1.status = RoundStatus.settled ∧
            r1.winning_ship_index = some (settleShipOf env fs st round))) ∧
    (∀ env now fs st round env2 now2 fs2 round2,
        ((settleRound env now fs st round).2).isSettled = true → round2.id = round.id →
        (settleRound env2 now2 fs2 (settleRound env now fs st round).1 round2).1 =
            (settleRound env now fs st round).1 ∧
          ((settleRound env2 now2 fs2 (settleRound env now fs st round).1 round2).2).isSettled
              = false) ∧
    (∀ env now newId wallet body st,
        ((buyEntry env now newId wallet body st).1).rounds = st.rounds) ∧
    (∀ env now wallet body st,
        ((enterRound env now wallet body st).1).rounds = st.rounds) ∧
    (∀ env now vk st wa sig iid,
        ((confirmEntry env now vk st wa sig iid).1).rounds = st.rounds) := by
  refine ⟨?_, ?_, ?_, ?_, ?_, ?_⟩
  · intro env now fs st round h
    exact settleRound_not_settled_eq env now fs st round h
  · intro env now fs st round h
    rcases settleRound_settled_shape env now fs st round h with ⟨⟨r0, hdb⟩, heq⟩
    refine ⟨⟨r0, hdb⟩, ?_, ?_⟩
    · rw [heq]
      exact dbRunning_settleFinal env now fs st round
    · rw [heq]
      rcases settleFinal_round_mem env now fs st round hdb with ⟨r1, hm, h1, h2, h3, _⟩
      exact ⟨r1, hm, h1, h2, h3⟩
  · intro env now fs st round env2 now2 fs2 round2 h hid
    rcases settleRound_settled_shape env now fs st round h with ⟨⟨r0, _⟩, heq⟩
    have hnone : dbRunning (settleRound env now fs st round).1 round2.id = none := by
      rw [hid, heq]
      exact dbRunning_settleFinal env now fs st round
    exact settle_noop_of_none env2 now2 fs2 _ round2 hnone
  · intro env now newId wallet body st
    unfold buyEntry
    dsimp only
    repeat' split
    all_goals rfl
  · intro env now wallet body st
    unfold enterRound
    dsimp only
    repeat' split
    all_goals rfl
  · intro env now vk st wa sig iid
    unfold confirmEntry
    dsimp only
    repeat' split
    all_goals rfl

/-- Witness for C1: on the sample state, a pre-deadline invocation is not
the settling one and leaves the state unchanged, while an invocation at
the deadline observes the `running` row. -/
theorem claim_C1_witness :
    (settleRound envA 0 "f" stA roundA).1 = stA ∧
      (∃ r0, dbRunning stA roundA.id = some r0) := by
  have h1 : settleRound envA 0 "f" stA roundA = (stA, .notEnded) := by
    unfold settleRound
    rw [if_neg (by simp [roundA]), if_pos (by norm_num [roundA])]
  have h2 : dbRunning stA roundA.id = some roundA := by
    unfold dbRunning
    rw [show stA.rounds = [roundA] from rfl, List.find?_cons_of_pos _ (by simp [roundA])]
  have hrun : settleRound envA 1000 "f" stA roundA = settleCore envA 1000 "f" stA roundA :=
    settleRound_run envA 1000 "f" stA roundA (by simp [roundA]) (by simp [roundA])
      (by norm_num [roundA])
  have hset : ((settleRound envA 1000 "f" stA roundA).2).isSettled = true := by
    rw [hrun, settleCore_of_some envA 1000 "f" stA roundA h2]
    rfl
  exact ⟨claim_C1_settlement_exactly_once.1 envA 0 "f" stA roundA (by rw [h1]; rfl),
    (claim_C1_settlement_exactly_once.2.1 envA 1000 "f" stA roundA hset).1⟩

/-- C5: a round that ends with zero entries settles without error: the
winning outcome is set to 0, `emissions_total` is set to 0, zero payout
rows are written and no balance changes.  (The division-by-zero-free
claim is reflected in the guarded structure: with zero total the draw
branch is skipped and both payout loops skip every row, so no division
is evaluated.) -/
theorem claim_C5_zero_entries (env : Env) (now : ℚ) (fs : String) (st : St) (round : Round)
    (hs : round.started_at ≠ none) (hr : round.status = RoundStatus.running)
    (he : ¬ now < round.ends_at) (r0 : Round) (hdb : dbRunning st round.id = some r0)
    (hnone : entriesOf st round.id = []) :
    (settleRound env now fs st round).2 =
        .settled 0 (settleSeedOf env fs st round) 0 0 0 0 0 ∧
      (settleRound env now fs st round).1.payouts = st.payouts ∧
      (settleRound env now fs st round).1.balances = st.balances ∧
      (∃ r1 ∈ (settleRound env now fs st round).1.rounds,
        r1.id = round.id ∧ r1.status = RoundStatus.settled ∧
        r1.winning_ship_index = some 0 ∧ r1.emissions_total = 0) := by
  have heq := (settleRound_run env now fs st round hs hr he).trans
    (settleCore_of_some env now fs st round hdb)
  have htot : totalEntriesQ (entriesOf st round.id) = 0 := by
    rw [hnone]
    have hz : (fun i => shipQty ([] : List Entry) i) = fun _ => (0 : ℚ) :=
      funext fun _ => rfl
    unfold totalEntriesQ
    rw [hz]
    simp
  have hpot : roundPot env st round.id = 0 := by
    unfold roundPot
    rw [htot]
    ring
  have hcut : treasuryCutOf env st round.id = 0 := by
    unfold treasuryCutOf
    rw [hpot]
    ring
  have hwp : winnerPotOf env st round.id = 0 := by
    unfold winnerPotOf
    rw [hpot]
    ring
  have hpp : participationPotOf env st round.id = 0 := by
    unfold participationPotOf
    rw [hpot]
    ring
  have hship : settleShipOf env fs st round = 0 := by
    unfold settleShipOf settleWinning
    rw [htot]
    rw [if_neg (lt_irrefl 0)]
  have hrecs : settleRecs env st round.id (settleShipOf env fs st round) = [] := by
    unfold settleRecs partRowsOf winRowsOf entriesOnShip
    rw [hnone]
    rfl
  have hfin : settleFinal env now fs st round = settleSt1 env now fs st round := by
    unfold settleFinal
    rw [hrecs]
    show settleSt2 env now fs st round = settleSt1 env now fs st round
    unfold settleSt2
    rw [hcut, if_neg (lt_irrefl 0)]
  refine ⟨?_, ?_, ?_, ?_⟩
  · rw [heq]
    simp only [hship, hpot, hwp, hpp, hcut]
  · rw [heq]
    show (settleFinal env now fs st round).payouts = st.payouts
    rw [hfin]
    rfl
  · rw [heq]
    show (settleFinal env now fs st round).balances = st.balances
    rw [hfin]
    rfl
  · rw [heq]
    rcases settleFinal_round_mem env now fs st round hdb with ⟨r1, hm, h1, h2, h3, h4, _⟩
    rw [hship] at h3
    rw [hpot] at h4
    exact ⟨r1, hm, h1, h2, h3, h4⟩

/-- Witness for C5: the sample empty round settles to winning outcome 0 with
zero emissions and no payout rows. -/
theorem claim_C5_witness :
    (settleRound envA 1000 "f" stE roundA).2 =
        SettleResult.settled 0 (settleSeedOf envA "f" stE roundA) 0 0 0 0 0 ∧
      (settleRound envA 1000 "f" stE roundA).1.payouts = stE.payouts ∧
      (settleRound envA 1000 "f" stE roundA).1.balances = stE.balances ∧
      (∃ r1 ∈ (settleRound envA 1000 "f" stE roundA).1.rounds,
        r1.id = roundA.id ∧ r1.status = RoundStatus.settled ∧
        r1.winning_ship_index = some 0 ∧ r1.emissions_total = 0) :=
  claim_C5_zero_entries envA 1000 "f" stE roundA (by simp [roundA]) rfl
    (by norm_num [roundA]) roundA
    (by unfold dbRunning
        rw [show stE.rounds = [roundA] from rfl, List.find?_cons_of_pos _ (by simp [roundA])])
    rfl

/-- C6: a payment reference already recorded in the `payments` table can
never be confirmed again: whatever the state of the intent presented,
the call is rejected and leaves the state (payments, intents, entries)
unchanged. -/
theorem claim_C6_replay_rejected (env : Env) (now : ℚ) (verifyOk : Bool) (st : St)
    (wallet signature intentId : String)
    (h : ∃ p ∈ st.payments, p.signature = signature) :
    (confirmEntry env now verifyOk st wallet signature intentId).1 = st ∧
      ((confirmEntry env now verifyOk st wallet signature intentId).2).isOk = false := by
  have hfind : (st.payments.find? (fun p => decide (p.signature = signature))).isSome := by
    rw [List.find?_isSome]
    rcases h with ⟨p, hp, hsig⟩
    exact ⟨p, hp, by simp [hsig]⟩
  unfold confirmEntry
  by_cases h1 : wallet = "" ∨ signature = "" ∨ intentId = ""
  · rw [if_pos h1]
    exact ⟨rfl, rfl⟩
  · rw [if_neg h1]
    cases hI : st.intents.find? (fun it => decide (it.id = intentId)) with
    | none => exact ⟨rfl, rfl⟩
    | some row =>
      dsimp only
      by_cases h2 : row.wallet ≠ wallet
      · rw [if_pos h2]
        exact ⟨rfl, rfl⟩
      · rw [if_neg h2]
        by_cases h3 : row.expires_at < now
        · rw [if_pos h3]
          exact ⟨rfl, rfl⟩
        · rw [if_neg h3]
          cases hK : row.kind with
          | geEntry rid si q =>
            dsimp only
            rw [if_pos hfind]
            exact ⟨rfl, rfl⟩
          | otherKind tag => exact ⟨rfl, rfl⟩

/-- Witness for C6: on the sample state the recorded reference `sig1` is
rejected even with a live matching intent and a verifying payment. -/
theorem claim_C6_witness :
    (confirmEntry envA 0 true stB "w" "sig1" "i1").1 = stB ∧
      ((confirmEntry envA 0 true stB "w" "sig1" "i1").2).isOk = false :=
  claim_C6_replay_rejected envA 0 true stB "w" "sig1" "i1"
    ⟨⟨"sig1", "w", "ge_entry:1", 1 / 10⟩, by simp [stB], rfl⟩

/-- C9: balances are monotonically non-decreasing under every engine
operation: every payout record a settlement applies carries a strictly
positive amount, settlement never decreases any balance (the treasury
upsert happens only for a strictly positive cut), and the entry
endpoints never touch balances at all. -/
theorem claim_C9_balance_monotone :
    (∀ env st rid ship p, p ∈ settleRecs env st rid ship → 0 < p.2) ∧
    (∀ env now fs st round w,
        st.balances w ≤ (settleRound env now fs st round).1.balances w) ∧
    (∀ env now newId wallet body st w,
        ((buyEntry env now newId wallet body st).1).balances w = st.balances w) ∧
    (∀ env now wallet body st w,
        ((enterRound env now wallet body st).1).balances w = st.balances w) ∧
    (∀ env now vk st wa sig iid w,
        ((confirmEntry env now vk st wa sig iid).1).balances w = st.balances w) := by
  refine ⟨?_, ?_, ?_, ?_, ?_⟩
  · intro env st rid ship p hp
    exact settleRecs_pos env st rid ship p hp
  · intro env now fs st round w
    exact settleRound_balance_mono env now fs st round w
  · intro env now newId wallet body st w
    unfold buyEntry
    dsimp only
    repeat' split
    all_goals rfl
  · intro env now wallet body st w
    unfold enterRound
    dsimp only
    repeat' split
    all_goals rfl
  · intro env now vk st wa sig iid w
    unfold confirmEntry
    dsimp only
    repeat' split
    all_goals rfl

/-- Witness for C9: the winner record of wallet `a` in a sample settlement
of `stX` carries a strictly positive amount. -/
theorem claim_C9_witness :
    (0 : ℚ) <
      winnerPotOf envX stX 1 * qtyOf (entriesOnShip stX 1 0) "a" /
        rowsTotal (winRowsOf stX 1 0) := by
  have e1 : qtyOf (entriesOnShip stX 1 0) "a" = 1 := by
    simp [qtyOf, entriesOnShip, entriesOf, stX]
  have e2 : rowsTotal (winRowsOf stX 1 0) = 1 := by
    simp [rowsTotal, winRowsOf, groupRows, walletsOf, qtyOf, entriesOnShip, entriesOf, stX]
  have hrange : List.range GE_SHIPS = [0, 1, 2, 3, 4, 5, 6, 7, 8, 9, 10, 11, 12, 13, 14] := rfl
  have e3 : totalEntriesQ (entriesOf stX 1) = 1 := by
    unfold totalEntriesQ
    rw [hrange]
    simp [shipQty, entriesOf, stX]
  have e4 : winnerPotOf envX stX 1 = 2 := by
    unfold winnerPotOf roundPot
    rw [e3]
    norm_num [envX]
  have h1 : ¬ (qtyOf (entriesOnShip stX 1 0) "a" ≤ 0 ∨ rowsTotal (winRowsOf stX 1 0) ≤ 0) := by
    rw [e1, e2]
    norm_num
  have h2 : ¬ (winnerPotOf envX stX 1 * qtyOf (entriesOnShip stX 1 0) "a" /
      rowsTotal (winRowsOf stX 1 0) ≤ 0) := by
    rw [e1, e2, e4]
    norm_num
  have hw : ("a", qtyOf (entriesOnShip stX 1 0) "a") ∈ winRowsOf stX 1 0 := by
    refine mem_groupRows _ ?_
    simp [walletsOf, entriesOnShip, entriesOf, stX]
  exact claim_C9_balance_monotone.1 envX stX 1 0 _
    (List.mem_append.mpr (Or.inr (mem_payoutRecs_of_mem hw h1 h2)))

/-- The paid path rejects with the round-closed error past the cutoff. -/
theorem buyEntry_past_cutoff (env : Env) (now : ℚ) (newId wallet : String) (body : EntryBody)
    (st : St) (round : Round) (hcur : getCurrentRound st = some round)
    (hstat : round.status = RoundStatus.running) (hstart : round.started_at ≠ none)
    (hw : wallet ≠ "") (ht : env.treasuryWallet ≠ "")
    (hship : shipIndexOk body.ship_index = true)
    (hc : now > round.ends_at - env.cutoffMs) :
    buyEntry env now newId wallet body st = (st, .roundClosed) := by
  unfold buyEntry
  rw [if_neg hw, if_neg ht, hcur]
  dsimp only
  rw [if_neg (by simp [hstat])]
  rw [if_neg (by simp [hship]), if_pos ⟨hstart, hc⟩]

/-- The paid path accepts strictly before the cutoff, writing the bound
intent. -/
theorem buyEntry_accepts (env : Env) (now : ℚ) (newId wallet : String) (body : EntryBody)
    (st : St) (round : Round) (hcur : getCurrentRound st = some round)
    (hstat : round.status = RoundStatus.running) (hw : wallet ≠ "")
    (ht : env.treasuryWallet ≠ "") (hship : shipIndexOk body.ship_index = true)
    (hlt : now < round.ends_at - env.cutoffMs)
    (hlam : 0 < jsRound (jsClampQty body.qty * env.entryPriceSol * 1000000000)) :
    buyEntry env now newId wallet body st =
      ({ st with intents := st.intents ++
          [⟨newId, wallet,
            .geEntry round.id (shipIndexVal body.ship_index) (jsClampQty body.qty),
            jsRound (jsClampQty body.qty * env.entryPriceSol * 1000000000),
            now + 10 * 60 * 1000⟩] },
        .ok newId (jsRound (jsClampQty body.qty * env.entryPriceSol * 1000000000))
          (jsClampQty body.qty)) := by
  unfold buyEntry
  rw [if_neg hw, if_neg ht, hcur]
  dsimp only
  rw [if_neg (by simp [hstat])]
  rw [if_neg (by simp [hship])]
  rw [if_neg (by
    rintro ⟨_, hgt⟩
    exact lt_asymm hlt hgt)]
  rw [if_neg (not_le.mpr hlam)]

/-- The free path rejects with the round-closed error past the cutoff. -/
theorem enterRound_past_cutoff (env : Env) (now : ℚ) (wallet : String) (body : EntryBody)
    (st : St) (round : Round) (hcur : getCurrentRound st = some round)
    (hstart : round.started_at ≠ none) (hc : now > round.ends_at - env.cutoffMs) :
    enterRound env now wallet body st = (st, .roundClosed) := by
  unfold enterRound
  rw [hcur]
  try dsimp only
  rw [if_pos ⟨hstart, hc⟩]

/-- The free path accepts strictly before the cutoff, writing the clamped
entry. -/
theorem enterRound_accepts (env : Env) (now : ℚ) (wallet : String) (body : EntryBody)
    (st : St) (round : Round) (hcur : getCurrentRound st = some round)
    (hstart : round.started_at ≠ none) (hcut : 0 ≤ env.cutoffMs)
    (hlt : now < round.ends_at - env.cutoffMs) (hship : shipIndexOk body.ship_index = true) :
    enterRound env now wallet body st =
      ({ st with entries := st.entries ++
          [⟨round.id, wallet, shipIndexVal body.ship_index, jsClampQty body.qty⟩] },
        .okEntered) := by
  unfold enterRound
  rw [hcur]
  try dsimp only
  rw [if_neg (by
    rintro ⟨_, hgt⟩
    exact lt_asymm hlt hgt)]
  rw [if_neg (by simp [hship])]
  try dsimp only
  have hcur2 : getCurrentRound
      { st with entries := st.entries ++
          [⟨round.id, wallet, shipIndexVal body.ship_index, jsClampQty body.qty⟩] } =
      some round := hcur
  rw [hcur2]
  try dsimp only
  rw [if_neg (by
    rintro ⟨_, _, hgt⟩
    have hle : now < round.ends_at := lt_of_lt_of_le hlt (by linarith)
    exact lt_asymm hle hgt)]

/-- Confirm-entry re-checks the cutoff after a verified payment and fails
with the round-closed error. -/
theorem confirmEntry_past_cutoff (env : Env) (now : ℚ) (st : St)
    (wallet sig iid : String) (row : Intent) (rid : Nat) (si : Int) (q : ℚ) (r : Round)
    (hw : wallet ≠ "") (hs : sig ≠ "") (hi : iid ≠ "")
    (hfi : st.intents.find? (fun it => decide (it.id = iid)) = some row)
    (hrw : row.wallet = wallet) (hexp : ¬ row.expires_at < now)
    (hk : row.kind = .geEntry rid si q)
    (hrep : (st.payments.find? (fun p => decide (p.signature = sig))).isSome = false)
    (hfr : st.rounds.find? (fun r2 => decide (r2.id = rid)) = some r)
    (hstat : r.status = RoundStatus.running)
    (hc : now > r.ends_at - env.cutoffMs) :
    confirmEntry env now true st wallet sig iid = (st, .entryClosed) := by
  unfold confirmEntry
  rw [if_neg (by simp [hw, hs, hi]), hfi]
  try dsimp only
  rw [if_neg (by simp [hrw]), if_neg hexp, hk]
  try dsimp only
  rw [if_neg (by simp [hrep]), if_neg (by simp), hfr]
  try dsimp only
  rw [if_neg (by simp [hstat]), if_pos hc]

/-- C7: for every running round and valid outcome index, entry creation
(paid `buy-entry` path and free `enter` path) is rejected with the
round-closed error whenever `now > ends_at - cutoff`, and accepted at
any time strictly before that boundary (given the other validations
pass); and `confirm-entry` re-checks the same condition at confirmation
time, failing with the round-closed error even though the payment
verified. -/
theorem claim_C7_cutoff_boundary :
    (∀ env now newId wallet body st round,
        getCurrentRound st = some round → round.status = RoundStatus.running →
        round.started_at ≠ none → wallet ≠ "" → env.treasuryWallet ≠ "" →
        shipIndexOk body.ship_index = true →
        now > round.ends_at - env.cutoffMs →
        buyEntry env now newId wallet body st = (st, .roundClosed)) ∧
    (∀ env now newId wallet body st round,
        getCurrentRound st = some round → round.status = RoundStatus.running →
        wallet ≠ "" → env.treasuryWallet ≠ "" →
        shipIndexOk body.ship_index = true →
        now < round.ends_at - env.cutoffMs →
        0 < jsRound (jsClampQty body.qty * env.entryPriceSol * 1000000000) →
        buyEntry env now newId wallet body st =
          ({ st with intents := st.intents ++
              [⟨newId, wallet,
                .geEntry round.id (shipIndexVal body.ship_index) (jsClampQty body.qty),
                jsRound (jsClampQty body.qty * env.entryPriceSol * 1000000000),
                now + 10 * 60 * 1000⟩] },
            .ok newId (jsRound (jsClampQty body.qty * env.entryPriceSol * 1000000000))
              (jsClampQty body.qty))) ∧
    (∀ env now wallet body st round,
        getCurrentRound st = some round → round.started_at ≠ none →
        now > round.ends_at - env.cutoffMs →
        enterRound env now wallet body st = (st, .roundClosed)) ∧
    (∀ env now wallet body st round,
        getCurrentRound st = some round → round.started_at ≠ none →
        0 ≤ env.cutoffMs → now < round.ends_at - env.cutoffMs →
        shipIndexOk body.ship_index = true →
        enterRound env now wallet body st =
          ({ st with entries := st.entries ++
              [⟨round.id, wallet, shipIndexVal body.ship_index, jsClampQty body.qty⟩] },
            .okEntered)) ∧
    (∀ env now st wallet sig iid row rid si q r,
        wallet ≠ "" → sig ≠ "" → iid ≠ "" →
        st.intents.find? (fun it => decide (it.id = iid)) = some row →
        row.wallet = wallet → ¬ row.expires_at < now →
        row.kind = .geEntry rid si q →
        (st.payments.find? (fun p => decide (p.signature = sig))).isSome = false →
        st.rounds.find? (fun r2 => decide (r2.id = rid)) = some r →
        r.status = RoundStatus.running →
        now > r.ends_at - env.cutoffMs →
        confirmEntry env now true st wallet sig iid = (st, .entryClosed)) := by
  refine ⟨?_, ?_, ?_, ?_, ?_⟩
  · intro env now newId wallet body st round hcur hstat hstart hw ht hship hc
    exact buyEntry_past_cutoff env now newId wallet body st round hcur hstat hstart hw ht
      hship hc
  · intro env now newId wallet body st round hcur hstat hw ht hship hlt hlam
    exact buyEntry_accepts env now newId wallet body st round hcur hstat hw ht hship hlt hlam
  · intro env now wallet body st round hcur hstart hc
    exact enterRound_past_cutoff env now wallet body st round hcur hstart hc
  · intro env now wallet body st round hcur hstart hcut hlt hship
    exact enterRound_accepts env now wallet body st round hcur hstart hcut hlt hship
  · intro env now st wallet sig iid row rid si q r hw hs hi hfi hrw hexp hk hrep hfr hstat hc
    exact confirmEntry_past_cutoff env now st wallet sig iid row rid si q r hw hs hi hfi hrw
      hexp hk hrep hfr hstat hc


/-- Witness for C7: on the sample state (round ends at 1000000, cutoff
15000), the paid path rejects at t = 990000 and accepts at t = 0, and
confirm-entry rejects at t = 990000 with the round-closed error even
though the payment verifies. -/
theorem claim_C7_witness :
    (buyEntry envA 990000 "i9" "w" ⟨some 3, some 1⟩ stB = (stB, BuyResult.roundClosed)) ∧
    (buyEntry envA 0 "i9" "w" ⟨some 3, some 1⟩ stB =
      ({ stB with intents := stB.intents ++
          [⟨"i9", "w",
            .geEntry roundB.id (shipIndexVal (some 3)) (jsClampQty (some 1)),
            jsRound (jsClampQty (some 1) * envA.entryPriceSol * 1000000000),
            0 + 10 * 60 * 1000⟩] },
        BuyResult.ok "i9" (jsRound (jsClampQty (some 1) * envA.entryPriceSol * 1000000000))
          (jsClampQty (some 1)))) ∧
    (confirmEntry envA 990000 true stB "w" "sig2" "i1" = (stB, ConfirmResult.entryClosed)) := by
  have hcur : getCurrentRound stB = some roundB := by
    simp [getCurrentRound, stB, roundB]
  have hship : shipIndexOk (some 3) = true := by
    simp only [shipIndexOk, decide_eq_true_eq]
    refine ⟨?_, by norm_num, by norm_num [GE_SHIPS]⟩
    norm_num
  have hclamp : jsClampQty (some 1) = 1 := by
    simp only [jsClampQty, if_neg (one_ne_zero (α := ℚ))]
    norm_num
  have hlam : 0 < jsRound (jsClampQty (some 1) * envA.entryPriceSol * 1000000000) := by
    rw [hclamp]
    unfold jsRound
    have h1 : (1 : ℤ) ≤ ⌊(1 : ℚ) * envA.entryPriceSol * 1000000000 + 1 / 2⌋ := by
      rw [Int.le_floor]
      norm_num [envA]
    exact lt_of_lt_of_le Int.zero_lt_one h1
  have hfi : stB.intents.find? (fun it => decide (it.id = "i1")) =
      some ⟨"i1", "w", .geEntry 1 3 1, 100000000, 2000000⟩ := by
    rw [show stB.intents = [⟨"i1", "w", .geEntry 1 3 1, 100000000, 2000000⟩] from rfl,
      List.find?_cons_of_pos _ (by simp)]
  have hrep : (stB.payments.find? (fun p => decide (p.signature = "sig2"))).isSome = false := by
    rw [show stB.payments = [⟨"sig1", "w", "ge_entry:1", 1 / 10⟩] from rfl,
      List.find?_cons_of_neg _ (by simp), List.find?_nil]
    rfl
  have hfr : stB.rounds.find? (fun r2 => decide (r2.id = 1)) = some roundB := by
    rw [show stB.rounds = [roundB] from rfl,
      List.find?_cons_of_pos _ (by simp [roundB])]
  refine ⟨?_, ?_, ?_⟩
  · exact claim_C7_cutoff_boundary.1 envA 990000 "i9" "w" ⟨some 3, some 1⟩ stB roundB
      hcur rfl (by simp [roundB]) (by simp) (by simp [envA]) hship
      (by norm_num [roundB, envA])
  · exact claim_C7_cutoff_boundary.2.1 envA 0 "i9" "w" ⟨some 3, some 1⟩ stB roundB
      hcur rfl (by simp) (by simp [envA]) hship (by norm_num [roundB, envA]) hlam
  · exact claim_C7_cutoff_boundary.2.2.2.2 envA 990000 stB "w" "sig2" "i1"
      ⟨"i1", "w", .geEntry 1 3 1, 100000000, 2000000⟩ 1 3 1 roundB
      (by simp) (by simp) (by simp) hfi rfl (by norm_num) rfl hrep hfr rfl
      (by norm_num [roundB, envA])

/-! ## Clamp lemmas -/

theorem jsClampQty_lower (q : Option ℚ) : 1 ≤ jsClampQty q := by
  cases q with
  | none => exact le_refl 1
  | some v => exact le_max_left 1 _

theorem jsClampQty_upper (q : Option ℚ) : jsClampQty q ≤ 100 := by
  cases q with
  | none => norm_num [jsClampQty]
  | some v =>
    show max 1 (min 100 (if v = 0 then 1 else v)) ≤ 100
    refine max_le (by norm_num) (min_le_left _ _)

theorem jsClampQty_nonpos (q : ℚ) (h : q ≤ 0) : jsClampQty (some q) = 1 := by
  show max 1 (min 100 (if q = 0 then 1 else q)) = 1
  by_cases hq : q = 0
  · rw [if_pos hq]
    rw [min_eq_right (by norm_num : (1 : ℚ) ≤ 100), max_self]
  · rw [if_neg hq]
    rw [min_eq_right (by linarith : q ≤ 100), max_eq_left (by linarith)]

/-! ## Shape of the writes performed by the entry endpoints -/

theorem enterRound_entries_shape (env : Env) (now : ℚ) (wallet : String) (body : EntryBody)
    (st : St) :
    (enterRound env now wallet body st).1.entries = st.entries ∨
      ∃ rid, (enterRound env now wallet body st).1.entries =
        st.entries ++ [⟨rid, wallet, shipIndexVal body.ship_index, jsClampQty body.qty⟩] := by
  unfold enterRound
  dsimp only
  repeat' split
  all_goals first
    | exact Or.inl rfl
    | exact Or.inr ⟨_, rfl⟩

theorem buyEntry_intents_shape (env : Env) (now : ℚ) (newId wallet : String)
    (body : EntryBody) (st : St) :
    (buyEntry env now newId wallet body st).1.intents = st.intents ∨
      ∃ rid, (buyEntry env now newId wallet body st).1.intents =
        st.intents ++ [⟨newId, wallet,
          .geEntry rid (shipIndexVal body.ship_index) (jsClampQty body.qty),
          jsRound (jsClampQty body.qty * env.entryPriceSol * 1000000000),
          now + 10 * 60 * 1000⟩] := by
  unfold buyEntry
  dsimp only
  repeat' split
  all_goals first
    | exact Or.inl rfl
    | exact Or.inr ⟨_, rfl⟩

theorem confirmEntry_entries_shape (env : Env) (now : ℚ) (vk : Bool) (st : St)
    (wa sig iid : String) :
    (confirmEntry env now vk st wa sig iid).1.entries = st.entries ∨
      ∃ row rid si q,
        st.intents.find? (fun it => decide (it.id = iid)) = some row ∧
        row.kind = .geEntry rid si q ∧
        (confirmEntry env now vk st wa sig iid).1.entries =
          st.entries ++ [⟨rid, wa, si, q⟩] := by
  unfold confirmEntry
  by_cases h1 : wa = "" ∨ sig = "" ∨ iid = ""
  · rw [if_pos h1]
    exact Or.inl rfl
  · rw [if_neg h1]
    cases hI : st.intents.find? (fun it => decide (it.id = iid)) with
    | none => exact Or.inl rfl
    | some row =>
      dsimp only
      by_cases h2 : row.wallet ≠ wa
      · rw [if_pos h2]
        exact Or.inl rfl
      · rw [if_neg h2]
        by_cases h3 : row.expires_at < now
        · rw [if_pos h3]
          exact Or.inl rfl
        · rw [if_neg h3]
          cases hK : row.kind with
          | otherKind tag => exact Or.inl rfl
          | geEntry rid si q =>
            dsimp only
            by_cases h4 : (st.payments.find?
                (fun p => decide (p.signature = sig))).isSome = true
            · rw [if_pos h4]
              exact Or.inl rfl
            · rw [if_neg h4]
              by_cases h5 : ¬ vk = true
              · rw [if_pos h5]
                exact Or.inl rfl
              · rw [if_neg h5]
                cases hR : st.rounds.find? (fun r => decide (r.id = rid)) with
                | none => exact Or.inl rfl
                | some r =>
                  dsimp only
                  by_cases h6 : r.status ≠ RoundStatus.running
                  · rw [if_pos h6]
                    exact Or.inl rfl
                  · rw [if_neg h6]
                    by_cases h7 : now > r.ends_at - env.cutoffMs
                    · rw [if_pos h7]
                      exact Or.inl rfl
                    · rw [if_neg h7]
                      exact Or.inr ⟨row, rid, si, q, rfl, hK, rfl⟩

/-- Counterexample to C8 as stated: a paid-path request with ticket quantity
0 (non-positive) is not rejected — the quantity is clamped to 1, the
call succeeds with HTTP 200 and an intent row is written. -/
theorem claim_C8_counterexample :
    jsClampQty (some 0) = 1 ∧
    buyEntry envA 0 "i8" "w" ⟨some 3, some 0⟩ stB =
      ({ stB with intents := stB.intents ++
          [⟨"i8", "w", .geEntry roundB.id (shipIndexVal (some 3)) (jsClampQty (some 0)),
            jsRound (jsClampQty (some 0) * envA.entryPriceSol * 1000000000),
            0 + 10 * 60 * 1000⟩] },
        BuyResult.ok "i8" (jsRound (jsClampQty (some 0) * envA.entryPriceSol * 1000000000))
          (jsClampQty (some 0))) ∧
    (BuyResult.ok "i8" (jsRound (jsClampQty (some 0) * envA.entryPriceSol * 1000000000))
        (jsClampQty (some 0))).statusCode = 200 ∧
    stB.intents ++
        [⟨"i8", "w", .geEntry roundB.id (shipIndexVal (some 3)) (jsClampQty (some 0)),
          jsRound (jsClampQty (some 0) * envA.entryPriceSol * 1000000000),
          0 + 10 * 60 * 1000⟩] ≠ stB.intents := by
  have hclamp : jsClampQty (some 0) = 1 := jsClampQty_nonpos 0 (le_refl 0)
  have hcur : getCurrentRound stB = some roundB := by
    simp [getCurrentRound, stB, roundB]
  have hship : shipIndexOk (some 3) = true := by
    simp only [shipIndexOk, decide_eq_true_eq]
    refine ⟨?_, by norm_num, by norm_num [GE_SHIPS]⟩
    norm_num
  have hlam : 0 < jsRound (jsClampQty (some 0) * envA.entryPriceSol * 1000000000) := by
    rw [hclamp]
    unfold jsRound
    have h1 : (1 : ℤ) ≤ ⌊(1 : ℚ) * envA.entryPriceSol * 1000000000 + 1 / 2⌋ := by
      rw [Int.le_floor]
      norm_num [envA]
    exact lt_of_lt_of_le Int.zero_lt_one h1
  refine ⟨hclamp, ?_, rfl, ?_⟩
  · exact buyEntry_accepts envA 0 "i8" "w" ⟨some 3, some 0⟩ stB roundB hcur rfl
      (by simp) (by simp [envA]) hship (by norm_num [roundB, envA]) hlam
  · intro h
    have hlen := congrArg List.length h
    simp at hlen

/-- C8 as amended by the counterexample: a request with an invalid outcome
index is rejected with a 4xx validation error before any write, on both
entry paths; a non-positive ticket quantity, however, is not rejected —
both paths clamp it to 1 and the request proceeds, creating the intent
or entry with quantity 1. -/
theorem claim_C8_amended :
    (∀ env now newId wallet body st round,
        getCurrentRound st = some round → round.status = RoundStatus.running →
        wallet ≠ "" → env.treasuryWallet ≠ "" →
        shipIndexOk body.ship_index = false →
        buyEntry env now newId wallet body st = (st, .invalidShipIndex) ∧
          BuyResult.statusCode .invalidShipIndex = 400) ∧
    (∀ env now wallet body st round,
        getCurrentRound st = some round →
        ¬ (round.started_at ≠ none ∧ now > round.ends_at - env.cutoffMs) →
        shipIndexOk body.ship_index = false →
        enterRound env now wallet body st = (st, .invalidShipIndex)) ∧
    (∀ q : ℚ, q ≤ 0 → jsClampQty (some q) = 1) ∧
    (∀ env now newId wallet si (q : ℚ) st round,
        getCurrentRound st = some round → round.status = RoundStatus.running →
        wallet ≠ "" → env.treasuryWallet ≠ "" → shipIndexOk si = true →
        now < round.ends_at - env.cutoffMs → q ≤ 0 →
        0 < jsRound (1 * env.entryPriceSol * 1000000000) →
        buyEntry env now newId wallet ⟨si, some q⟩ st =
          ({ st with intents := st.intents ++
              [⟨newId, wallet, .geEntry round.id (shipIndexVal si) 1,
                jsRound (1 * env.entryPriceSol * 1000000000), now + 10 * 60 * 1000⟩] },
            .ok newId (jsRound (1 * env.entryPriceSol * 1000000000)) 1)) := by
  refine ⟨?_, ?_, ?_, ?_⟩
  · intro env now newId wallet body st round hcur hstat hw ht hship
    refine ⟨?_, rfl⟩
    unfold buyEntry
    rw [if_neg hw, if_neg ht, hcur]
    dsimp only
    rw [if_neg (by simp [hstat]), if_pos (by simp [hship])]
  · intro env now wallet body st round hcur hng hship
    unfold enterRound
    rw [hcur]
    try dsimp only
    rw [if_neg hng, if_pos (by simp [hship])]
  · exact jsClampQty_nonpos
  · intro env now newId wallet si q st round hcur hstat hw ht hship hlt hq hlam
    have h := buyEntry_accepts env now newId wallet ⟨si, some q⟩ st round hcur hstat hw ht
      hship hlt (by rw [show (⟨si, some q⟩ : EntryBody).qty = some q from rfl,
        jsClampQty_nonpos q hq]; exact hlam)
    rw [show (⟨si, some q⟩ : EntryBody).qty = some q from rfl,
      jsClampQty_nonpos q hq] at h
    exact h

/-- Witness for the amended C8: an out-of-range outcome index (20) is
rejected on the sample state, and the quantity -5 clamps to 1. -/
theorem claim_C8_witness :
    (buyEntry envA 0 "i0" "w" ⟨some 20, some 1⟩ stB = (stB, BuyResult.invalidShipIndex)) ∧
      jsClampQty (some (-5)) = 1 := by
  have hcur : getCurrentRound stB = some roundB := by
    simp [getCurrentRound, stB, roundB]
  have hship : shipIndexOk (some 20) = false := by
    simp only [shipIndexOk, decide_eq_false_iff_not]
    rintro ⟨-, -, h⟩
    norm_num [GE_SHIPS] at h
  exact ⟨(claim_C8_amended.1 envA 0 "i0" "w" ⟨some 20, some 1⟩ stB roundB hcur rfl
      (by simp) (by simp [envA]) hship).1,
    claim_C8_amended.2.2.1 (-5) (by norm_num)⟩

/-- Counterexample to C10 as stated: the clamp does not round, so a
fractional requested quantity 5/2 is persisted as a non-integer entry by
the free path — the persisted ticket quantity is not an integer. -/
theorem claim_C10_counterexample :
    jsClampQty (some (5 / 2)) = 5 / 2 ∧
    enterRound envA 0 "w" ⟨some 3, some (5 / 2)⟩ stB =
      ({ stB with entries := stB.entries ++
          [⟨roundB.id, "w", shipIndexVal (some 3), jsClampQty (some (5 / 2))⟩] },
        EnterResult.okEntered) ∧
    ¬ ∃ n : ℤ, (5 / 2 : ℚ) = (n : ℚ) := by
  have hclamp : jsClampQty (some (5 / 2)) = 5 / 2 := by
    show max 1 (min 100 (if (5 / 2 : ℚ) = 0 then 1 else 5 / 2)) = 5 / 2
    rw [if_neg (by norm_num), min_eq_right (by norm_num), max_eq_right (by norm_num)]
  have hcur : getCurrentRound stB = some roundB := by
    simp [getCurrentRound, stB, roundB]
  have hship : shipIndexOk (some 3) = true := by
    simp only [shipIndexOk, decide_eq_true_eq]
    refine ⟨?_, by norm_num, by norm_num [GE_SHIPS]⟩
    norm_num
  refine ⟨hclamp, ?_, ?_⟩
  · exact enterRound_accepts envA 0 "w" ⟨some 3, some (5 / 2)⟩ stB roundB hcur
      (by simp [roundB]) (by norm_num [envA]) (by norm_num [roundB, envA]) hship
  · rintro ⟨n, hn⟩
    have h2 : (5 : ℚ) = (n : ℚ) * 2 := by linarith
    have h3 : ((5 : ℤ) : ℚ) = ((n * 2 : ℤ) : ℚ) := by push_cast; linarith
    have h4 : (5 : ℤ) = n * 2 := Int.cast_injective h3
    omega

/-- C10 as amended by the counterexample: every entry the public endpoints
write has its ticket quantity clamped into the range [1, 100] — missing,
zero, negative and over-limit numeric requests included — but the
quantity need not be an integer: fractional in-range values pass through
unrounded.  The paid path binds the clamped quantity into the intent and
the confirmation writes exactly the quantity bound in the intent it
consumes. -/
theorem claim_C10_clamped_range :
    (∀ q, 1 ≤ jsClampQty q ∧ jsClampQty q ≤ 100) ∧
    (∀ env now wallet body st e,
        e ∈ (enterRound env now wallet body st).1.entries →
        e ∈ st.entries ∨ (1 ≤ e.qty ∧ e.qty ≤ 100)) ∧
    (∀ env now newId wallet body st it,
        it ∈ (buyEntry env now newId wallet body st).1.intents →
        it ∈ st.intents ∨
          ∃ rid si q, it.kind = IntentKind.geEntry rid si q ∧ 1 ≤ q ∧ q ≤ 100) ∧
    (∀ env now vk st wa sig iid e,
        e ∈ (confirmEntry env now vk st wa sig iid).1.entries →
        e ∈ st.entries ∨
          ∃ it ∈ st.intents, it.kind = IntentKind.geEntry e.round_id e.ship_index e.qty) := by
  refine ⟨fun q => ⟨jsClampQty_lower q, jsClampQty_upper q⟩, ?_, ?_, ?_⟩
  · intro env now wallet body st e he
    rcases enterRound_entries_shape env now wallet body st with h | ⟨rid, h⟩
    · rw [h] at he
      exact Or.inl he
    · rw [h] at he
      rcases List.mem_append.mp he with h1 | h1
      · exact Or.inl h1
      · rcases List.mem_singleton.mp h1 with rfl
        exact Or.inr ⟨jsClampQty_lower _, jsClampQty_upper _⟩
  · intro env now newId wallet body st it hit
    rcases buyEntry_intents_shape env now newId wallet body st with h | ⟨rid, h⟩
    · rw [h] at hit
      exact Or.inl hit
    · rw [h] at hit
      rcases List.mem_append.mp hit with h1 | h1
      · exact Or.inl h1
      · rcases List.mem_singleton.mp h1 with rfl
        exact Or.inr ⟨rid, shipIndexVal body.ship_index, jsClampQty body.qty, rfl,
          jsClampQty_lower _, jsClampQty_upper _⟩
  · intro env now vk st wa sig iid e he
    rcases confirmEntry_entries_shape env now vk st wa sig iid with h | ⟨row, rid, si, q, hI, hK, h⟩
    · rw [h] at he
      exact Or.inl he
    · rw [h] at he
      rcases List.mem_append.mp he with h1 | h1
      · exact Or.inl h1
      · rcases List.mem_singleton.mp h1 with rfl
        have hI' : st.intents.find? (fun it => decide (it.id = iid)) = some row := hI
        exact Or.inr ⟨row, List.mem_of_find?_eq_some hI', hK⟩

/-- Witness for the amended C10: the entry the free path writes for the
in-range request 7 satisfies the clamped-range bound. -/
theorem claim_C10_witness :
    (⟨roundB.id, "w", shipIndexVal (some 3), jsClampQty (some 7)⟩ : Entry) ∈ stB.entries ∨
      (1 ≤ (jsClampQty (some 7) : ℚ) ∧ (jsClampQty (some 7) : ℚ) ≤ 100) := by
  have hcur : getCurrentRound stB = some roundB := by
    simp [getCurrentRound, stB, roundB]
  have hship : shipIndexOk (some 3) = true := by
    simp only [shipIndexOk, decide_eq_true_eq]
    refine ⟨?_, by norm_num, by norm_num [GE_SHIPS]⟩
    norm_num
  have hacc := enterRound_accepts envA 0 "w" ⟨some 3, some 7⟩ stB roundB hcur
    (by simp [roundB]) (by norm_num [envA]) (by norm_num [roundB, envA]) hship
  refine claim_C10_clamped_range.2.1 envA 0 "w" ⟨some 3, some 7⟩ stB _ ?_
  rw [hacc]
  exact List.mem_append_right _ (List.mem_singleton.mpr rfl)

/-! ## Payout-sum bounds -/

theorem shipQty_nonneg (es : List Entry) (i : Nat) (h : ∀ e ∈ es, 0 ≤ e.qty) :
    0 ≤ shipQty es i := by
  refine List.sum_nonneg ?_
  intro x hx
  rcases List.mem_map.mp hx with ⟨e, he, rfl⟩
  exact h e (List.mem_of_mem_filter he)

theorem totalEntriesQ_nonneg (es : List Entry) (h : ∀ e ∈ es, 0 ≤ e.qty) :
    0 ≤ totalEntriesQ es := by
  refine List.sum_nonneg ?_
  intro x hx
  rcases List.mem_map.mp hx with ⟨i, _, rfl⟩
  exact shipQty_nonneg es i h

theorem payoutsForRound_zero (st : St) (rid : Nat)
    (h : ∀ p ∈ st.payouts, p.round_id ≠ rid) : payoutsForRound st rid = 0 := by
  unfold payoutsForRound
  have hnil : st.payouts.filter (fun p => decide (p.round_id = rid)) = [] := by
    refine List.filter_eq_nil_iff.mpr ?_
    intro p hp
    simp [h p hp]
  rw [hnil]
  rfl

theorem payoutsForRound_settleFinal (env : Env) (now : ℚ) (fs : String) (st : St)
    (round : Round) :
    payoutsForRound (settleFinal env now fs st round) round.id =
      payoutsForRound st round.id +
        rowsTotal (settleRecs env st round.id (settleShipOf env fs st round)) := by
  unfold payoutsForRound
  rw [settleFinal_payouts, List.filter_append, List.map_append, List.sum_append]
  have hall : ((settleRecs env st round.id (settleShipOf env fs st round)).map
      (fun p => (⟨round.id, p.1, p.2⟩ : Payout))).filter
        (fun p => decide (p.round_id = round.id)) =
      (settleRecs env st round.id (settleShipOf env fs st round)).map
        (fun p => (⟨round.id, p.1, p.2⟩ : Payout)) := by
    refine List.filter_eq_self.mpr ?_
    intro x hx
    rcases List.mem_map.mp hx with ⟨p, _, rfl⟩
    simp
  rw [hall, List.map_map]
  rfl

theorem settleRecs_total_le (env : Env) (st : St) (rid ship : Nat)
    (hq : ∀ e ∈ entriesOf st rid, 0 ≤ e.qty) (hpr : 0 ≤ env.entryPriceSol)
    (hwb : 0 ≤ env.winnerBps) (hpb : 0 ≤ env.participationBps) :
    rowsTotal (settleRecs env st rid ship) ≤
      participationPotOf env st rid + winnerPotOf env st rid := by
  have hpot : 0 ≤ roundPot env st rid :=
    mul_nonneg (totalEntriesQ_nonneg _ hq) hpr
  have hppn : 0 ≤ participationPotOf env st rid :=
    div_nonneg (mul_nonneg hpot hpb) (by norm_num)
  have hwpn : 0 ≤ winnerPotOf env st rid :=
    div_nonneg (mul_nonneg hpot hwb) (by norm_num)
  have hq2 : ∀ e ∈ entriesOnShip st rid ship, 0 ≤ e.qty := by
    intro e he
    exact hq e (List.mem_of_mem_filter he)
  unfold settleRecs
  rw [rowsTotal_append]
  have h1 : rowsTotal (payoutRecs (participationPotOf env st rid)
      (rowsTotal (partRowsOf st rid)) (partRowsOf st rid)) ≤ participationPotOf env st rid :=
    payoutRecs_rowsTotal_le _ _ _ hppn (groupRows_snd_nonneg _ hq) (le_refl _)
  have h2 : rowsTotal (payoutRecs (winnerPotOf env st rid)
      (rowsTotal (winRowsOf st rid ship)) (winRowsOf st rid ship)) ≤ winnerPotOf env st rid :=
    payoutRecs_rowsTotal_le _ _ _ hwpn (groupRows_snd_nonneg _ hq2) (le_refl _)
  linarith

/-- Counterexample to C3 as stated: with a bps configuration whose shares sum
above 10000 (winner 20000, participation 0, treasury 0) the pools exceed
the total stake — on a one-ticket round the stake is 1 but the pools sum
to 2, and the settlement does run on this configuration. -/
theorem claim_C3_counterexample :
    totalEntriesQ (entriesOf stX 1) * envX.entryPriceSol <
        winnerPotOf envX stX 1 + participationPotOf envX stX 1 + treasuryCutOf envX stX 1 ∧
      ((settleRound envX 1000 "f" stX roundA).2).isSettled = true := by
  have hrange : List.range GE_SHIPS = [0, 1, 2, 3, 4, 5, 6, 7, 8, 9, 10, 11, 12, 13, 14] := rfl
  have e3 : totalEntriesQ (entriesOf stX 1) = 1 := by
    unfold totalEntriesQ
    rw [hrange]
    simp [shipQty, entriesOf, stX]
  have hw : winnerPotOf envX stX 1 = 2 := by
    unfold winnerPotOf roundPot
    rw [e3]
    norm_num [envX]
  have hp : participationPotOf envX stX 1 = 0 := by
    unfold participationPotOf roundPot
    rw [e3]
    norm_num [envX]
  have ht : treasuryCutOf envX stX 1 = 0 := by
    unfold treasuryCutOf roundPot
    rw [e3]
    norm_num [envX]
  constructor
  · rw [e3, hw, hp, ht]
    norm_num [envX]
  · have hdb : dbRunning stX roundA.id = some roundA := by
      unfold dbRunning
      rw [show stX.rounds = [roundA] from rfl, List.find?_cons_of_pos _ (by simp [roundA])]
    rw [settleRound_run envX 1000 "f" stX roundA (by simp [roundA]) rfl
        (by norm_num [roundA]),
      settleCore_of_some envX 1000 "f" stX roundA hdb]
    rfl

/-- C3 as amended by the counterexample: with nonnegative entry quantities
and nonnegative bps shares, the sum of the payout amounts written for a
round is at most `winner_pool + participation_pool + treasury_cut`; and
when the bps shares additionally sum to at most 10000, the pools sum to
at most the total stake.  (The code applies no clamping to the shares,
so a configuration summing above 10000 overdraws — the second bound
needs the sum restriction the counterexample exhibits.) -/
theorem claim_C3_payout_bound (env : Env) (now : ℚ) (fs : String) (st : St) (round : Round)
    (hq : ∀ e ∈ entriesOf st round.id, 0 ≤ e.qty) (hpr : 0 ≤ env.entryPriceSol)
    (hwb : 0 ≤ env.winnerBps) (hpb : 0 ≤ env.participationBps) (htb : 0 ≤ env.treasuryBps)
    (hclean : ∀ p ∈ st.payouts, p.round_id ≠ round.id) :
    payoutsForRound (settleRound env now fs st round).1 round.id ≤
        winnerPotOf env st round.id + participationPotOf env st round.id +
          treasuryCutOf env st round.id ∧
      (env.winnerBps + env.participationBps + env.treasuryBps ≤ 10000 →
        winnerPotOf env st round.id + participationPotOf env st round.id +
            treasuryCutOf env st round.id ≤
          totalEntriesQ (entriesOf st round.id) * env.entryPriceSol) := by
  have hpot : 0 ≤ roundPot env st round.id :=
    mul_nonneg (totalEntriesQ_nonneg _ hq) hpr
  have hppn : 0 ≤ participationPotOf env st round.id :=
    div_nonneg (mul_nonneg hpot hpb) (by norm_num)
  have hwpn : 0 ≤ winnerPotOf env st round.id :=
    div_nonneg (mul_nonneg hpot hwb) (by norm_num)
  have htcn : 0 ≤ treasuryCutOf env st round.id :=
    div_nonneg (mul_nonneg hpot htb) (by norm_num)
  constructor
  · rcases settleRound_cases env now fs st round with ⟨h1, _⟩ | ⟨_, heq⟩
    · rw [h1, payoutsForRound_zero st round.id hclean]
      linarith
    · rw [heq]
      show payoutsForRound (settleFinal env now fs st round) round.id ≤ _
      rw [payoutsForRound_settleFinal, payoutsForRound_zero st round.id hclean]
      have := settleRecs_total_le env st round.id (settleShipOf env fs st round) hq hpr hwb hpb
      linarith
  · intro hsum
    have hexp : winnerPotOf env st round.id + participationPotOf env st round.id +
        treasuryCutOf env st round.id =
        roundPot env st round.id *
          (env.winnerBps + env.participationBps + env.treasuryBps) / 10000 := by
      unfold winnerPotOf participationPotOf treasuryCutOf
      ring
    rw [hexp]
    rw [div_le_iff₀ (by norm_num : (0 : ℚ) < 10000)]
    show roundPot env st round.id * _ ≤ totalEntriesQ (entriesOf st round.id) *
      env.entryPriceSol * 10000
    calc roundPot env st round.id * (env.winnerBps + env.participationBps + env.treasuryBps)
        ≤ roundPot env st round.id * 10000 := mul_le_mul_of_nonneg_left hsum hpot
      _ = totalEntriesQ (entriesOf st round.id) * env.entryPriceSol * 10000 := rfl

/-- Witness for the amended C3: on the default-configuration sample
settlement the written payouts stay below the pools and the pools below
the stake. -/
theorem claim_C3_witness :
    payoutsForRound (settleRound envA 1000 "f" stA roundA).1 roundA.id ≤
        winnerPotOf envA stA roundA.id + participationPotOf envA stA roundA.id +
          treasuryCutOf envA stA roundA.id ∧
      winnerPotOf envA stA roundA.id + participationPotOf envA stA roundA.id +
          treasuryCutOf envA stA roundA.id ≤
        totalEntriesQ (entriesOf stA roundA.id) * envA.entryPriceSol := by
  have hes : entriesOf stA roundA.id = [⟨1, "a", 0, 2⟩, ⟨1, "b", 1, 3⟩] := by
    simp [entriesOf, stA, roundA]
  have hq : ∀ e ∈ entriesOf stA roundA.id, 0 ≤ e.qty := by
    rw [hes]
    intro e he
    rcases List.mem_cons.mp he with rfl | he2
    · norm_num
    · rcases List.mem_singleton.mp he2 with rfl
      norm_num
  have h := claim_C3_payout_bound envA 1000 "f" stA roundA hq (by norm_num [envA])
    (by norm_num [envA]) (by norm_num [envA]) (by norm_num [envA]) (by simp [stA])
  exact ⟨h.1, h.2 (by norm_num [envA])⟩

/-- C2: for every settled round with a positive total ticket count `n`, the
settlement seed equals the hash of
`secret : round_id : ends_at : total_tickets`, the drawn ticket equals
the integer value `v` of the first 12 hex nybbles of the seed modulo
`n`, and the winning outcome is the first index, iterating outcomes in
index order and accumulating per-outcome ticket counts, whose cumulative
sum exceeds that ticket (`firstCumWinner` is written from the spec's
words and the code's winner refines it). -/
theorem claim_C2_seed_and_draw (env : Env) (now : ℚ) (fs : String) (st : St) (round : Round)
    (n v : Nat)
    (hs : round.started_at ≠ none) (hr : round.status = RoundStatus.running)
    (he : ¬ now < round.ends_at) (r0 : Round) (hdb : dbRunning st round.id = some r0)
    (htot : totalEntriesQ (entriesOf st round.id) = (n : ℚ)) (hn : 0 < n)
    (hp : parseIntHex ((settleSeedOf env fs st round).data.take 12) = some v) :
    settleSeedOf env fs st round =
        env.H (settleSecret fs round ++ ":" ++ toString round.id ++ ":" ++
          env.isoStr round.ends_at ++ ":" ++
          env.numStr (totalEntriesQ (entriesOf st round.id))) ∧
      (settleRound env now fs st round).2 =
        SettleResult.settled (settleShipOf env fs st round) (settleSeedOf env fs st round)
          (roundPot env st round.id) (roundPot env st round.id) (winnerPotOf env st round.id)
          (participationPotOf env st round.id) (treasuryCutOf env st round.id) ∧
      jsMod (v : ℚ) (totalEntriesQ (entriesOf st round.id)) = ((v % n : Nat) : ℚ) ∧
      (firstCumWinner ((v % n : Nat) : ℚ) (entriesOf st round.id)).isSome ∧
      settleShipOf env fs st round =
        (firstCumWinner ((v % n : Nat) : ℚ) (entriesOf st round.id)).getD 0 := by
  have hmod : jsMod (v : ℚ) (totalEntriesQ (entriesOf st round.id)) = ((v % n : Nat) : ℚ) := by
    rw [htot]
    exact jsMod_natCast v n hn
  have htpos : 0 < totalEntriesQ (entriesOf st round.id) := by
    rw [htot]
    exact_mod_cast hn
  refine ⟨rfl, ?_, hmod, ?_, ?_⟩
  · rw [settleRound_run env now fs st round hs hr he,
      settleCore_of_some env now fs st round hdb]
  · refine firstCumWinner_isSome _ _ ?_
    rw [htot]
    exact_mod_cast Nat.mod_lt v hn
  · unfold settleShipOf
    rw [settleWinning_first (entriesOf st round.id) (totalEntriesQ (entriesOf st round.id))
      (settleSeedOf env fs st round) v htpos hp, hmod]

/-- Witness for C2: on the sample state (5 tickets, digest with first 12 hex
nybbles `0x00000000000b = 11`, ticket `11 mod 5 = 1`), the settlement
result carries the hashed seed and the first-cumulative winner. -/
theorem claim_C2_witness :
    settleSeedOf envA "f" stA roundA =
        envA.H (settleSecret "f" roundA ++ ":" ++ toString roundA.id ++ ":" ++
          envA.isoStr roundA.ends_at ++ ":" ++
          envA.numStr (totalEntriesQ (entriesOf stA roundA.id))) ∧
      (settleRound envA 1000 "f" stA roundA).2 =
        SettleResult.settled (settleShipOf envA "f" stA roundA)
          (settleSeedOf envA "f" stA roundA) (roundPot envA stA roundA.id)
          (roundPot envA stA roundA.id) (winnerPotOf envA stA roundA.id)
          (participationPotOf envA stA roundA.id) (treasuryCutOf envA stA roundA.id) ∧
      jsMod ((11 : Nat) : ℚ) (totalEntriesQ (entriesOf stA roundA.id)) =
        (((11 % 5 : Nat) : Nat) : ℚ) ∧
      (firstCumWinner (((11 % 5 : Nat) : Nat) : ℚ) (entriesOf stA roundA.id)).isSome ∧
      settleShipOf envA "f" stA roundA =
        (firstCumWinner (((11 % 5 : Nat) : Nat) : ℚ) (entriesOf stA roundA.id)).getD 0 := by
  have hdb : dbRunning stA roundA.id = some roundA := by
    unfold dbRunning
    rw [show stA.rounds = [roundA] from rfl, List.find?_cons_of_pos _ (by simp [roundA])]
  have hes : entriesOf stA roundA.id = [⟨1, "a", 0, 2⟩, ⟨1, "b", 1, 3⟩] := by
    simp [entriesOf, stA, roundA]
  have hrange : List.range GE_SHIPS = [0, 1, 2, 3, 4, 5, 6, 7, 8, 9, 10, 11, 12, 13, 14] := rfl
  have htot : totalEntriesQ (entriesOf stA roundA.id) = ((5 : Nat) : ℚ) := by
    unfold totalEntriesQ
    rw [hrange, hes]
    simp [shipQty]
    norm_num
  have hp : parseIntHex ((settleSeedOf envA "f" stA roundA).data.take 12) = some 11 := by
    have hseed : settleSeedOf envA "f" stA roundA = "00000000000bdeadbeef1234" := rfl
    rw [hseed]
    decide
  exact claim_C2_seed_and_draw envA 1000 "f" stA roundA 5 11 (by simp [roundA]) rfl
    (by norm_num [roundA]) roundA hdb htot (by norm_num) hp

/-- C4: in every settled round with positive total tickets (and the positive
default-style configuration), each bettor on the winning outcome gets a
winner payout row of `winner_pool × their tickets on the winning outcome
/ total tickets on the winning outcome`; every bettor of the round gets
a participation payout row of `participation_pool × their total tickets
/ the round's total ticket count` (the group-by divisors equal those
totals); and the bettor's balance increases by the sum of their payout
rows — two rows summed when eligible for both pools. -/
theorem claim_C4_pro_rata (env : Env) (now : ℚ) (fs : String) (st : St) (round : Round)
    (w : String)
    (hs : round.started_at ≠ none) (hr : round.status = RoundStatus.running)
    (he : ¬ now < round.ends_at) (r0 : Round) (hdb : dbRunning st round.id = some r0)
    (hq : ∀ e ∈ entriesOf st round.id, 0 < e.qty)
    (htot : 0 < totalEntriesQ (entriesOf st round.id))
    (hpr : 0 < env.entryPriceSol) (hwb : 0 < env.winnerBps) (hpb : 0 < env.participationBps)
    (hw : w ∈ walletsOf (entriesOf st round.id)) (hnt : ¬ w = "__treasury__") :
    rowsTotal (partRowsOf st round.id) = totalTickets (entriesOf st round.id) ∧
    rowsTotal (winRowsOf st round.id (settleShipOf env fs st round)) =
      totalTickets (entriesOnShip st round.id (settleShipOf env fs st round)) ∧
    (⟨round.id, w, participationPotOf env st round.id * qtyOf (entriesOf st round.id) w /
        rowsTotal (partRowsOf st round.id)⟩ : Payout) ∈
      (settleRound env now fs st round).1.payouts ∧
    (w ∈ walletsOf (entriesOnShip st round.id (settleShipOf env fs st round)) →
      (⟨round.id, w, winnerPotOf env st round.id *
          qtyOf (entriesOnShip st round.id (settleShipOf env fs st round)) w /
          rowsTotal (winRowsOf st round.id (settleShipOf env fs st round))⟩ : Payout) ∈
        (settleRound env now fs st round).1.payouts) ∧
    (settleRound env now fs st round).1.balances w =
      st.balances w +
        participationPotOf env st round.id * qtyOf (entriesOf st round.id) w /
          rowsTotal (partRowsOf st round.id) +
        (if w ∈ walletsOf (entriesOnShip st round.id (settleShipOf env fs st round)) then
          winnerPotOf env st round.id *
            qtyOf (entriesOnShip st round.id (settleShipOf env fs st round)) w /
            rowsTotal (winRowsOf st round.id (settleShipOf env fs st round))
        else 0) := by
  have heq := (settleRound_run env now fs st round hs hr he).trans
    (settleCore_of_some env now fs st round hdb)
  have hst1 : (settleRound env now fs st round).1 = settleFinal env now fs st round := by
    rw [heq]
  have hq0 : ∀ e ∈ entriesOf st round.id, 0 ≤ e.qty := fun e he2 => (hq e he2).le
  have hqw : 0 < qtyOf (entriesOf st round.id) w := qtyOf_pos _ w hq hw
  have hsndnn : ∀ x ∈ (partRowsOf st round.id).map Prod.snd, 0 ≤ x := by
    intro x hx
    rcases List.mem_map.mp hx with ⟨p, hp, rfl⟩
    exact groupRows_snd_nonneg _ hq0 p hp
  have hptpos : 0 < rowsTotal (partRowsOf st round.id) := by
    have hmem : qtyOf (entriesOf st round.id) w ∈ (partRowsOf st round.id).map Prod.snd :=
      List.mem_map.mpr ⟨(w, qtyOf (entriesOf st round.id) w), mem_groupRows _ hw, rfl⟩
    exact lt_of_lt_of_le hqw (List.single_le_sum hsndnn _ hmem)
  have hpot : 0 < roundPot env st round.id := mul_pos htot hpr
  have hpppos : 0 < participationPotOf env st round.id :=
    div_pos (mul_pos hpot hpb) (by norm_num)
  have hwppos : 0 < winnerPotOf env st round.id :=
    div_pos (mul_pos hpot hwb) (by norm_num)
  have hpamt : 0 < participationPotOf env st round.id * qtyOf (entriesOf st round.id) w /
      rowsTotal (partRowsOf st round.id) := div_pos (mul_pos hpppos hqw) hptpos
  have hc1 : ¬ (qtyOf (entriesOf st round.id) w ≤ 0 ∨
      rowsTotal (partRowsOf st round.id) ≤ 0) := by
    push_neg
    exact ⟨hqw, hptpos⟩
  have hc2 : ¬ (participationPotOf env st round.id * qtyOf (entriesOf st round.id) w /
      rowsTotal (partRowsOf st round.id) ≤ 0) := not_le.mpr hpamt
  have hrecp : (w, participationPotOf env st round.id * qtyOf (entriesOf st round.id) w /
      rowsTotal (partRowsOf st round.id)) ∈
      payoutRecs (participationPotOf env st round.id) (rowsTotal (partRowsOf st round.id))
        (partRowsOf st round.id) :=
    mem_payoutRecs_of_mem (mem_groupRows _ hw) hc1 hc2
  -- facts about the winner side, conditional on membership
  have hqW : ∀ e ∈ entriesOnShip st round.id (settleShipOf env fs st round), 0 < e.qty :=
    fun e he2 => hq e (List.mem_of_mem_filter he2)
  have hqW0 : ∀ e ∈ entriesOnShip st round.id (settleShipOf env fs st round), 0 ≤ e.qty :=
    fun e he2 => (hqW e he2).le
  refine ⟨rowsTotal_groupRows _, rowsTotal_groupRows _, ?_, ?_, ?_⟩
  · rw [hst1, settleFinal_payouts]
    refine List.mem_append_right _ (List.mem_map_of_mem _ (List.mem_append_left _ hrecp))
  · intro hww
    have hqwW : 0 < qtyOf (entriesOnShip st round.id (settleShipOf env fs st round)) w :=
      qtyOf_pos _ w hqW hww
    have hwtpos : 0 < rowsTotal (winRowsOf st round.id (settleShipOf env fs st round)) := by
      have hsnd : ∀ x ∈ (winRowsOf st round.id (settleShipOf env fs st round)).map Prod.snd,
          0 ≤ x := by
        intro x hx
        rcases List.mem_map.mp hx with ⟨p, hp, rfl⟩
        exact groupRows_snd_nonneg _ hqW0 p hp
      have hmem : qtyOf (entriesOnShip st round.id (settleShipOf env fs st round)) w ∈
          (winRowsOf st round.id (settleShipOf env fs st round)).map Prod.snd :=
        List.mem_map.mpr ⟨(w, qtyOf (entriesOnShip st round.id
          (settleShipOf env fs st round)) w), mem_groupRows _ hww, rfl⟩
      exact lt_of_lt_of_le hqwW (List.single_le_sum hsnd _ hmem)
    have hwamt : 0 < winnerPotOf env st round.id *
        qtyOf (entriesOnShip st round.id (settleShipOf env fs st round)) w /
        rowsTotal (winRowsOf st round.id (settleShipOf env fs st round)) :=
      div_pos (mul_pos hwppos hqwW) hwtpos
    have hrecw : (w, winnerPotOf env st round.id *
        qtyOf (entriesOnShip st round.id (settleShipOf env fs st round)) w /
        rowsTotal (winRowsOf st round.id (settleShipOf env fs st round))) ∈
        payoutRecs (winnerPotOf env st round.id)
          (rowsTotal (winRowsOf st round.id (settleShipOf env fs st round)))
          (winRowsOf st round.id (settleShipOf env fs st round)) :=
      mem_payoutRecs_of_mem (mem_groupRows _ hww)
        (by push_neg; exact ⟨hqwW, hwtpos⟩) (not_le.mpr hwamt)
    rw [hst1, settleFinal_payouts]
    exact List.mem_append_right _ (List.mem_map_of_mem _ (List.mem_append_right _ hrecw))
  · rw [hst1, settleFinal_balances env now fs st round w hnt]
    show st.balances w +
        recsFor w (settleRecs env st round.id (settleShipOf env fs st round)) = _
    unfold settleRecs
    rw [recsFor_append]
    have hpartval : recsFor w (payoutRecs (participationPotOf env st round.id)
        (rowsTotal (partRowsOf st round.id)) (partRowsOf st round.id)) =
        participationPotOf env st round.id * qtyOf (entriesOf st round.id) w /
          rowsTotal (partRowsOf st round.id) := by
      rw [recsFor_payoutRecs_mem _ _ (partRowsOf st round.id) w
        (qtyOf (entriesOf st round.id) w) (groupRows_fst_nodup _) (mem_groupRows _ hw)]
      rw [if_neg hc1, if_neg hc2]
    rw [hpartval]
    by_cases hww : w ∈ walletsOf (entriesOnShip st round.id (settleShipOf env fs st round))
    · have hqwW : 0 < qtyOf (entriesOnShip st round.id (settleShipOf env fs st round)) w :=
        qtyOf_pos _ w hqW hww
      have hwtpos : 0 < rowsTotal (winRowsOf st round.id (settleShipOf env fs st round)) := by
        have hsnd : ∀ x ∈ (winRowsOf st round.id (settleShipOf env fs st round)).map Prod.snd,
            0 ≤ x := by
          intro x hx
          rcases List.mem_map.mp hx with ⟨p, hp, rfl⟩
          exact groupRows_snd_nonneg _ hqW0 p hp
        have hmem : qtyOf (entriesOnShip st round.id (settleShipOf env fs st round)) w ∈
            (winRowsOf st round.id (settleShipOf env fs st round)).map Prod.snd :=
          List.mem_map.mpr ⟨(w, qtyOf (entriesOnShip st round.id
            (settleShipOf env fs st round)) w), mem_groupRows _ hww, rfl⟩
        exact lt_of_lt_of_le hqwW (List.single_le_sum hsnd _ hmem)
      have hwamt : 0 < winnerPotOf env st round.id *
          qtyOf (entriesOnShip st round.id (settleShipOf env fs st round)) w /
          rowsTotal (winRowsOf st round.id (settleShipOf env fs st round)) :=
        div_pos (mul_pos hwppos hqwW) hwtpos
      have hwinval : recsFor w (payoutRecs (winnerPotOf env st round.id)
          (rowsTotal (winRowsOf st round.id (settleShipOf env fs st round)))
          (winRowsOf st round.id (settleShipOf env fs st round))) =
          winnerPotOf env st round.id *
            qtyOf (entriesOnShip st round.id (settleShipOf env fs st round)) w /
            rowsTotal (winRowsOf st round.id (settleShipOf env fs st round)) := by
        rw [recsFor_payoutRecs_mem _ _
          (winRowsOf st round.id (settleShipOf env fs st round)) w
          (qtyOf (entriesOnShip st round.id (settleShipOf env fs st round)) w)
          (groupRows_fst_nodup _) (mem_groupRows _ hww)]
        rw [if_neg (by push_neg; exact ⟨hqwW, hwtpos⟩), if_neg (not_le.mpr hwamt)]
      rw [hwinval, if_pos hww]
      ring
    · have hwz : recsFor w (payoutRecs (winnerPotOf env st round.id)
          (rowsTotal (winRowsOf st round.id (settleShipOf env fs st round)))
          (winRowsOf st round.id (settleShipOf env fs st round))) = 0 := by
        refine recsFor_payoutRecs_not_mem _ _ _ w ?_
        show w ∉ (groupRows (entriesOnShip st round.id (settleShipOf env fs st round))).map
          Prod.fst
        rw [groupRows_fst]
        exact hww
      rw [hwz, if_neg hww]
      ring

/-- Witness for C4: wallet `a` of the sample settlement (2 tickets on ship
0 out of 5 total) receives its pro-rata participation row, its winner
row when on the winning ship, and the summed balance increment. -/
theorem claim_C4_witness :
    rowsTotal (partRowsOf stA roundA.id) = totalTickets (entriesOf stA roundA.id) ∧
    rowsTotal (winRowsOf stA roundA.id (settleShipOf envA "f" stA roundA)) =
      totalTickets (entriesOnShip stA roundA.id (settleShipOf envA "f" stA roundA)) ∧
    (⟨roundA.id, "a", participationPotOf envA stA roundA.id *
        qtyOf (entriesOf stA roundA.id) "a" / rowsTotal (partRowsOf stA roundA.id)⟩ :
      Payout) ∈ (settleRound envA 1000 "f" stA roundA).1.payouts ∧
    ("a" ∈ walletsOf (entriesOnShip stA roundA.id (settleShipOf envA "f" stA roundA)) →
      (⟨roundA.id, "a", winnerPotOf envA stA roundA.id *
          qtyOf (entriesOnShip stA roundA.id (settleShipOf envA "f" stA roundA)) "a" /
          rowsTotal (winRowsOf stA roundA.id (settleShipOf envA "f" stA roundA))⟩ :
        Payout) ∈ (settleRound envA 1000 "f" stA roundA).1.payouts) ∧
    (settleRound envA 1000 "f" stA roundA).1.balances "a" =
      stA.balances "a" +
        participationPotOf envA stA roundA.id * qtyOf (entriesOf stA roundA.id) "a" /
          rowsTotal (partRowsOf stA roundA.id) +
        (if "a" ∈ walletsOf (entriesOnShip stA roundA.id (settleShipOf envA "f" stA roundA))
          then winnerPotOf envA stA roundA.id *
            qtyOf (entriesOnShip stA roundA.id (settleShipOf envA "f" stA roundA)) "a" /
            rowsTotal (winRowsOf stA roundA.id (settleShipOf envA "f" stA roundA))
        else 0) := by
  have hdb : dbRunning stA roundA.id = some roundA := by
    unfold dbRunning
    rw [show stA.rounds = [roundA] from rfl, List.find?_cons_of_pos _ (by simp [roundA])]
  have hes : entriesOf stA roundA.id = [⟨1, "a", 0, 2⟩, ⟨1, "b", 1, 3⟩] := by
    simp [entriesOf, stA, roundA]
  have hq : ∀ e ∈ entriesOf stA roundA.id, 0 < e.qty := by
    rw [hes]
    intro e he
    rcases List.mem_cons.mp he with rfl | he2
    · norm_num
    · rcases List.mem_singleton.mp he2 with rfl
      norm_num
  have hrange : List.range GE_SHIPS = [0, 1, 2, 3, 4, 5, 6, 7, 8, 9, 10, 11, 12, 13, 14] := rfl
  have htot : 0 < totalEntriesQ (entriesOf stA roundA.id) := by
    unfold totalEntriesQ
    rw [hrange, hes]
    simp [shipQty]
    norm_num
  have hw : "a" ∈ walletsOf (entriesOf stA roundA.id) := by
    rw [hes]
    simp [walletsOf]
  exact claim_C4_pro_rata envA 1000 "f" stA roundA "a" (by simp [roundA]) rfl
    (by norm_num [roundA]) roundA hdb hq htot (by norm_num [envA]) (by norm_num [envA])
    (by norm_num [envA]) hw (by simp)

end Zeruva
